import Mathlib

/-!
# Mutating Game of Life: the rule-driven engine

A shallow embedding of `simulation_mutating.hpp` / `simulation_mutating.cpp`
(struct `LifeRules`, class `Simulation`) together with the properties of the
engine that the design document states.

Conventions of the embedding.

* C++ `int` values are `Int`.  Signed overflow is undefined behaviour in C++, so
  no wrap-around is modelled; every property below concerns values far below
  `2^31`.
* `std::vector<int>` is `List Int`; `push_back` appends at the end, `erase` at a
  position is `List.eraseIdx`, `std::find(..) != end()` is list membership,
  `std::sort` is a sort by `≤`, `std::unique` + `erase` drops adjacent repeats.
* raylib's `GetRandomValue(min, max)` is an external generator.  It is embedded
  as a `RandomSource`: an arbitrary table giving the outcome of the k-th call
  for the range it is asked for, and the number of calls made so far.  The
  generator's contract (every outcome lies in the requested range) is the
  predicate `RandomSource.InRange`.
* Reads and writes of the grid outside the stored array are undefined behaviour
  in the source; they are the `none` results of the embedding.
-/

namespace MutatingLife

/-! ## Standard-library helpers -/

/-- The `std::sort` of a vector of ints (ascending). -/
def sort (l : List Int) : List Int := l.insertionSort (fun a b => a ≤ b)

/-- The `v.erase(std::unique(v.begin(), v.end()), v.end())` idiom: of every run of
equal adjacent elements only one is kept. -/
def unique : List Int → List Int
  | [] => []
  | [x] => [x]
  | x :: y :: rest => if x = y then unique (y :: rest) else x :: unique (y :: rest)

/-- The `std::to_string` of an int. -/
def to_string (n : Int) : String := toString n

/-! ## The random generator -/

/-- External generator behind raylib `GetRandomValue`: `outcome k lo hi` is what
the k-th call returns when it is asked for the range `[lo, hi]`; `used` counts
the calls already made. -/
structure RandomSource where
  outcome : Nat → Int → Int → Int
  used : Nat

/-- One call `GetRandomValue(minValue, maxValue)`: the value drawn and the
generator afterwards. -/
def GetRandomValue (rs : RandomSource) (minValue maxValue : Int) : Int × RandomSource :=
  (rs.outcome rs.used minValue maxValue, { rs with used := rs.used + 1 })

/-- Contract of `GetRandomValue`: every draw lies in the range requested. -/
def RandomSource.InRange (rs : RandomSource) : Prop :=
  ∀ (k : Nat) (lo hi : Int), lo ≤ hi → lo ≤ rs.outcome k lo hi ∧ rs.outcome k lo hi ≤ hi

/-! ## LifeRules -/

/-- The `struct LifeRules`. -/
structure LifeRules where
  survivalCounts : List Int
  birthCounts : List Int
deriving DecidableEq, Repr

/-- Default constructor `LifeRules()`: the standard rules B3/S23. -/
def LifeRules.new : LifeRules :=
  { survivalCounts := [2, 3], birthCounts := [3] }

/-- The method `LifeRules::ToString`. -/
def LifeRules.ToString (r : LifeRules) : String :=
  let result := "B"
  let result := r.birthCounts.foldl (fun acc b => acc ++ to_string b) result
  let result := result ++ "/S"
  r.survivalCounts.foldl (fun acc s => acc ++ to_string s) result

/-! ## Grid -/

/-- Modelled from the spec: class `Grid` (grid.hpp / grid.cpp are not among the
sources).  Attributes `rows`, `columns` and a rectangular array of cell states;
the array is stored row by row. -/
structure Grid where
  rows : Int
  columns : Int
  cells : List (List Int)
deriving DecidableEq, Repr

/-- Modelled from the spec: the constructor `Grid(width, height, cellSize)`;
rows = height/cellSize, columns = width/cellSize (integer division), all cells
dead. -/
def Grid.new (width height cellSize : Int) : Grid :=
  { rows := Int.tdiv height cellSize
    columns := Int.tdiv width cellSize
    cells := List.replicate (Int.tdiv height cellSize).toNat
      (List.replicate (Int.tdiv width cellSize).toNat 0) }

/-- Modelled from the spec: `Grid::GetRows`. -/
def Grid.GetRows (g : Grid) : Int := g.rows

/-- Modelled from the spec: `Grid::GetColumns`. -/
def Grid.GetColumns (g : Grid) : Int := g.columns

/-- Modelled from the spec: `Grid::GetValue(row, col)`, direct access with no
range checking; `none` is a read outside the array. -/
def Grid.GetValue (g : Grid) (row column : Int) : Option Int :=
  if 0 ≤ row ∧ 0 ≤ column then
    (g.cells[row.toNat]?).bind (fun cellRow => cellRow[column.toNat]?)
  else none

/-- Modelled from the spec: `Grid::SetValue(row, col, v)`, direct access with no
range checking; `none` is a write outside the array. -/
def Grid.SetValue (g : Grid) (row column value : Int) : Option Grid :=
  if 0 ≤ row ∧ 0 ≤ column then
    (g.cells[row.toNat]?).bind (fun cellRow =>
      if column.toNat < cellRow.length then
        some { g with cells := g.cells.set row.toNat (cellRow.set column.toNat value) }
      else none)
  else none

/-- Modelled from the spec: `Grid::Clear`, sets every cell to 0. -/
def Grid.Clear (g : Grid) : Grid :=
  { g with cells := g.cells.map (fun cellRow => cellRow.map (fun _ => 0)) }

/-- Modelled from the spec: one row of `Grid::FillRandom`, a fair coin per cell. -/
def Grid.fillLine : List Int → RandomSource → List Int × RandomSource
  | [], rs => ([], rs)
  | _ :: rest, rs =>
    let d := GetRandomValue rs 0 1
    let r := Grid.fillLine rest d.2
    (d.1 :: r.1, r.2)

/-- Modelled from the spec: the rows of `Grid::FillRandom`, visited in order. -/
def Grid.fillLines : List (List Int) → RandomSource → List (List Int) × RandomSource
  | [], rs => ([], rs)
  | cellRow :: rest, rs =>
    let d := Grid.fillLine cellRow rs
    let r := Grid.fillLines rest d.2
    (d.1 :: r.1, r.2)

/-- Modelled from the spec: `Grid::FillRandom`, sets every cell independently to
0 or 1 by a fair coin. -/
def Grid.FillRandom (g : Grid) (rs : RandomSource) : Grid × RandomSource :=
  ({ g with cells := (Grid.fillLines g.cells rs).1 }, (Grid.fillLines g.cells rs).2)

/-- Modelled from the spec: `Grid::ToggleCell(row, col)`, flips a single cell. -/
def Grid.ToggleCell (g : Grid) (row column : Int) : Option Grid :=
  (g.GetValue row column).bind (fun v => g.SetValue row column (if v = 0 then 1 else 0))

/-! ## Simulation -/

/-- The private data members of `class Simulation`. -/
structure Simulation where
  grid : Grid
  tempGrid : Grid
  run : Bool
  generationCount : Int
  mutationInterval : Int
  generationsSinceLastMutation : Int
  currentRules : LifeRules
  ruleHistory : List LifeRules
deriving DecidableEq, Repr

/-- The constructor `Simulation(width, height, cellSize)`. -/
def Simulation.new (width height cellSize : Int) : Simulation :=
  { grid := Grid.new width height cellSize
    tempGrid := Grid.new width height cellSize
    run := false
    generationCount := 0
    mutationInterval := 50
    generationsSinceLastMutation := 0
    currentRules := LifeRules.new
    ruleHistory := [] }

/-- The method `IsRunning`. -/
def Simulation.IsRunning (s : Simulation) : Bool := s.run

/-- The method `Start`. -/
def Simulation.Start (s : Simulation) : Simulation := { s with run := true }

/-- The method `Stop`. -/
def Simulation.Stop (s : Simulation) : Simulation := { s with run := false }

/-- The method `GetGeneration`. -/
def Simulation.GetGeneration (s : Simulation) : Int := s.generationCount

/-- The method `GetCurrentRulesString`. -/
def Simulation.GetCurrentRulesString (s : Simulation) : String := s.currentRules.ToString

/-- The method `SetMutationInterval`. -/
def Simulation.SetMutationInterval (s : Simulation) (interval : Int) : Simulation :=
  { s with mutationInterval := interval }

/-- The method `GetMutationInterval`. -/
def Simulation.GetMutationInterval (s : Simulation) : Int := s.mutationInterval

/-- The method `SetCellValue`. -/
def Simulation.SetCellValue (s : Simulation) (row column value : Int) : Option Simulation :=
  (s.grid.SetValue row column value).map (fun g => { s with grid := g })

/-- The local table `neighborOffsets` of `CountLiveNeighbors`. -/
def neighborOffsets : List (Int × Int) :=
  [(-1, 0), (1, 0), (0, -1), (0, 1), (-1, -1), (-1, 1), (1, -1), (1, 1)]

/-- The method `CountLiveNeighbors`.  `%` is the truncating remainder of C++; a
zero divisor, like a read outside the array, gives `none`. -/
def Simulation.CountLiveNeighbors (s : Simulation) (row column : Int) : Option Int :=
  neighborOffsets.foldlM (fun liveNeighbors offset =>
    if s.grid.GetRows = 0 ∨ s.grid.GetColumns = 0 then none
    else
      let neighborRow := Int.tmod (row + offset.1 + s.grid.GetRows) s.grid.GetRows
      let neighborColumn := Int.tmod (column + offset.2 + s.grid.GetColumns) s.grid.GetColumns
      (s.grid.GetValue neighborRow neighborColumn).map (fun v => liveNeighbors + v)) 0

/-- The method `ShouldCellLive`. -/
def Simulation.ShouldCellLive (s : Simulation) (liveNeighbors : Int)
    (isCurrentlyAlive : Bool) : Bool :=
  if isCurrentlyAlive then decide (liveNeighbors ∈ s.currentRules.survivalCounts)
  else decide (liveNeighbors ∈ s.currentRules.birthCounts)

/-- Strategies 1 and 2 of `MutateRules` on one of the two vectors: remove the
element at a drawn position (coin 0 and more than one element) or else add a
drawn count that is absent and sort.  The drawn position is a valid one whenever
the generator honours the requested range. -/
def addOrRemoveCount (counts : List Int) (rs : RandomSource) : List Int × RandomSource :=
  let coin := GetRandomValue rs 0 1
  if coin.1 = 0 ∧ counts.length > 1 then
    let idx := GetRandomValue coin.2 0 ((counts.length : Int) - 1)
    (counts.eraseIdx idx.1.toNat, idx.2)
  else
    let newCount := GetRandomValue coin.2 0 8
    if newCount.1 ∉ counts then (sort (counts ++ [newCount.1]), newCount.2)
    else (counts, newCount.2)

/-- Strategy 3 of `MutateRules` on one vector: shift every count, clamp to
[0,8], sort, drop adjacent repeats. -/
def shiftCounts (counts : List Int) (shift : Int) : List Int :=
  unique (sort (counts.map (fun count => max 0 (min 8 (count + shift)))))

/-- The filling loop of strategy 4: `n` iterations, each drawing a count in
[0,8] and appending it when it is absent. -/
def randomCounts : Nat → List Int → RandomSource → List Int × RandomSource
  | 0, counts, rs => (counts, rs)
  | n + 1, counts, rs =>
    let count := GetRandomValue rs 0 8
    randomCounts n (if count.1 ∉ counts then counts ++ [count.1] else counts) count.2

/-- The strategy part of `MutateRules` (from the draw of `mutationType` to the
end of the if/else chain). -/
def mutateStrategy (rules : LifeRules) (rs : RandomSource) : LifeRules × RandomSource :=
  let mutationType := GetRandomValue rs 0 9
  if mutationType.1 < 3 then
    let r := addOrRemoveCount rules.survivalCounts mutationType.2
    ({ rules with survivalCounts := r.1 }, r.2)
  else if mutationType.1 < 6 then
    let r := addOrRemoveCount rules.birthCounts mutationType.2
    ({ rules with birthCounts := r.1 }, r.2)
  else if mutationType.1 < 8 then
    let coin := GetRandomValue mutationType.2 0 1
    let shift : Int := if coin.1 = 0 then -1 else 1
    ({ survivalCounts := shiftCounts rules.survivalCounts shift
       birthCounts := shiftCounts rules.birthCounts shift }, coin.2)
  else
    let numSurvival := GetRandomValue mutationType.2 1 4
    let survival := randomCounts numSurvival.1.toNat [] numSurvival.2
    let numBirth := GetRandomValue survival.2 1 3
    let birth := randomCounts numBirth.1.toNat [] numBirth.2
    ({ survivalCounts := sort survival.1, birthCounts := sort birth.1 }, birth.2)

/-- The tail of `MutateRules`: "ensure we have at least one rule". -/
def ensureNonEmpty (rules : LifeRules) : LifeRules :=
  let rules := if rules.survivalCounts.isEmpty then
      { rules with survivalCounts := rules.survivalCounts ++ [2] } else rules
  if rules.birthCounts.isEmpty then
    { rules with birthCounts := rules.birthCounts ++ [3] } else rules

/-- What `MutateRules` does to `currentRules`. -/
def mutateLifeRules (rules : LifeRules) (rs : RandomSource) : LifeRules × RandomSource :=
  ((ensureNonEmpty (mutateStrategy rules rs).1), (mutateStrategy rules rs).2)

/-- The method `MutateRules`. -/
def Simulation.MutateRules (s : Simulation) (rs : RandomSource) : Simulation × RandomSource :=
  ({ s with
      ruleHistory := s.ruleHistory ++ [s.currentRules]
      currentRules := (mutateLifeRules s.currentRules rs).1 },
    (mutateLifeRules s.currentRules rs).2)

/-- Body of the inner loop of `Update` for one cell. -/
def Simulation.updateCell (s : Simulation) (row column : Int) : Option Simulation :=
  (s.CountLiveNeighbors row column).bind (fun liveNeighbors =>
    (s.grid.GetValue row column).bind (fun cellValue =>
      let shouldLive := s.ShouldCellLive liveNeighbors (cellValue == 1)
      (s.tempGrid.SetValue row column (if shouldLive then 1 else 0)).map
        (fun t => { s with tempGrid := t })))

/-- The inner loop of `Update`: `column` from 0 up to `grid.GetColumns()`. -/
def Simulation.updateRow (s : Simulation) (row : Int) : Option Simulation :=
  (List.range s.grid.GetColumns.toNat).foldlM
    (fun st (column : Nat) => st.updateCell row column) s

/-- The outer loop of `Update`: `row` from 0 up to `grid.GetRows()`. -/
def Simulation.updateGrid (s : Simulation) : Option Simulation :=
  (List.range s.grid.GetRows.toNat).foldlM (fun st (row : Nat) => st.updateRow row) s

/-- The mutation check at the head of `Update`. -/
def Simulation.mutateIfDue (s : Simulation) (rs : RandomSource) : Simulation × RandomSource :=
  if s.generationsSinceLastMutation ≥ s.mutationInterval then
    ({ (s.MutateRules rs).1 with generationsSinceLastMutation := 0 }, (s.MutateRules rs).2)
  else (s, rs)

/-- The method `Update`. -/
def Simulation.Update (s : Simulation) (rs : RandomSource) :
    Option (Simulation × RandomSource) :=
  if s.IsRunning then
    ((s.mutateIfDue rs).1.updateGrid).map (fun st =>
      ({ st with
          grid := st.tempGrid
          generationCount := st.generationCount + 1
          generationsSinceLastMutation := st.generationsSinceLastMutation + 1 },
        (s.mutateIfDue rs).2))
  else some (s, rs)

/-- The method `ResetRules`. -/
def Simulation.ResetRules (s : Simulation) : Simulation :=
  { s with
      currentRules := LifeRules.new
      ruleHistory := []
      generationCount := 0
      generationsSinceLastMutation := 0 }

/-- The method `ClearGrid`. -/
def Simulation.ClearGrid (s : Simulation) : Simulation :=
  if !s.IsRunning then
    { s with grid := s.grid.Clear, generationCount := 0, generationsSinceLastMutation := 0 }
  else s

/-- The method `CreateRandomState`. -/
def Simulation.CreateRandomState (s : Simulation) (rs : RandomSource) :
    Simulation × RandomSource :=
  if !s.IsRunning then
    ({ s with grid := (s.grid.FillRandom rs).1 }, (s.grid.FillRandom rs).2)
  else (s, rs)

/-- The method `ToggleCell`. -/
def Simulation.ToggleCell (s : Simulation) (row column : Int) : Option Simulation :=
  if !s.IsRunning then
    (s.grid.ToggleCell row column).map (fun g => { s with grid := g })
  else some s

/-- A number of consecutive `Update` calls (one per frame of the main loop). -/
def Simulation.UpdateN : Nat → Simulation → RandomSource → Option (Simulation × RandomSource)
  | 0, s, rs => some (s, rs)
  | n + 1, s, rs => (s.Update rs).bind (fun r => Simulation.UpdateN n r.1 r.2)

/-- A number of consecutive `MutateRules` calls. -/
def Simulation.MutateRulesN : Nat → Simulation → RandomSource → Simulation × RandomSource
  | 0, s, rs => (s, rs)
  | n + 1, s, rs => Simulation.MutateRulesN n (s.MutateRules rs).1 (s.MutateRules rs).2

/-! ## Well-formedness predicates -/

/-- One count vector is well formed: non-empty, sorted ascending, duplicate-free,
every value in [0,8]. -/
def CountsWellFormed (counts : List Int) : Prop :=
  counts ≠ [] ∧ counts.Sorted (fun a b => a ≤ b) ∧ counts.Nodup ∧ ∀ x ∈ counts, 0 ≤ x ∧ x ≤ 8

instance (counts : List Int) : Decidable (CountsWellFormed counts) := by
  unfold CountsWellFormed
  infer_instance

/-- A rule set is well formed when both of its vectors are. -/
def LifeRules.WellFormed (r : LifeRules) : Prop :=
  CountsWellFormed r.survivalCounts ∧ CountsWellFormed r.birthCounts

instance (r : LifeRules) : Decidable r.WellFormed := by
  unfold LifeRules.WellFormed
  infer_instance

/-- Shape invariant of a grid (design document, section 3): the array holds
exactly `rows` lines of exactly `columns` cells. -/
def Grid.WellFormed (g : Grid) : Prop :=
  0 ≤ g.rows ∧ 0 ≤ g.columns ∧ g.cells.length = g.rows.toNat ∧
    ∀ cellRow ∈ g.cells, cellRow.length = g.columns.toNat

instance (g : Grid) : Decidable g.WellFormed := by
  unfold Grid.WellFormed
  infer_instance

/-- Every cell of the grid is 0 (dead) or 1 (alive). -/
def Grid.Binary (g : Grid) : Prop :=
  ∀ cellRow ∈ g.cells, ∀ v ∈ cellRow, v = 0 ∨ v = 1

instance (g : Grid) : Decidable g.Binary := by
  unfold Grid.Binary
  infer_instance

/-- The position lies inside a `rows` x `columns` grid. -/
def Grid.InBounds (g : Grid) (row column : Int) : Prop :=
  0 ≤ row ∧ row < g.rows ∧ 0 ≤ column ∧ column < g.columns

instance (g : Grid) (row column : Int) : Decidable (g.InBounds row column) := by
  unfold Grid.InBounds
  infer_instance

/-- State invariant of `Simulation`: both grids are rectangular and the scratch
grid has the dimensions of the live grid (the constructor builds both from the
same arguments and `grid = tempGrid` keeps it so). -/
def Simulation.Coherent (s : Simulation) : Prop :=
  s.grid.WellFormed ∧ s.tempGrid.WellFormed ∧
    s.tempGrid.rows = s.grid.rows ∧ s.tempGrid.columns = s.grid.columns

instance (s : Simulation) : Decidable s.Coherent := by
  unfold Simulation.Coherent
  infer_instance

/-- Value read at a position, 0 where the read is outside the array. -/
def Grid.cell (g : Grid) (row column : Int) : Int := (g.GetValue row column).getD 0

/-- The sum accumulated by `CountLiveNeighbors`, offset by offset. -/
def Grid.neighbourSum (g : Grid) (row column : Int) : Int :=
  (neighborOffsets.map (fun offset =>
    g.cell (Int.tmod (row + offset.1 + g.rows) g.rows)
      (Int.tmod (column + offset.2 + g.columns) g.columns))).sum

/-- The eight positions read by `CountLiveNeighbors`, in the order of the offsets. -/
def Grid.neighbourCells (g : Grid) (row column : Int) : List (Int × Int) :=
  neighborOffsets.map (fun offset =>
    (Int.tmod (row + offset.1 + g.rows) g.rows,
      Int.tmod (column + offset.2 + g.columns) g.columns))

/-- In the words of the design document (4.4, step 2): the number of live cells
among the 8 toroidal neighbours, the offsets being those of the document and each
coordinate wrapped modulo the grid dimension. -/
def Grid.liveNeighbours (g : Grid) (row column : Int) : Int :=
  ((neighborOffsets.countP (fun offset =>
    g.GetValue ((row + offset.1) % g.rows) ((column + offset.2) % g.columns) == some 1) : Nat) : Int)

/-- In the words of the design document (4.4, step 2): the state of a cell in
the next generation, read off the current grid. -/
def Grid.nextCell (g : Grid) (rules : LifeRules) (row column : Int) : Int :=
  if (g.GetValue row column = some 1 ∧ g.liveNeighbours row column ∈ rules.survivalCounts) ∨
      (g.GetValue row column = some 0 ∧ g.liveNeighbours row column ∈ rules.birthCounts)
  then 1 else 0

/-- What the body of the loop of `Update` writes for one cell. -/
def Simulation.stepCell (s : Simulation) (row column : Int) : Int :=
  if s.ShouldCellLive (s.grid.neighbourSum row column) (s.grid.cell row column == 1) then 1
  else 0

/-- The loop body of `Update` run over an arbitrary list of positions. -/
def Simulation.updateCells (s : Simulation) (order : List (Int × Int)) : Option Simulation :=
  order.foldlM (fun st position => st.updateCell position.1 position.2) s

/-- A 3 x 4 sample state: running, classic rules, no mutation due, and a scratch
grid holding leftovers. -/
def sampleState : Simulation :=
  { grid := { rows := 3, columns := 4, cells := [[1, 0, 0, 1], [0, 1, 0, 0], [0, 0, 1, 0]] }
    tempGrid := { rows := 3, columns := 4, cells := [[7, 7, 7, 7], [0, 1, 0, 1], [5, 5, 5, 5]] }
    run := true
    generationCount := 12
    mutationInterval := 50
    generationsSinceLastMutation := 12
    currentRules := LifeRules.new
    ruleHistory := [] }

/-- Index above (or left of) `i` on a ring of `n` positions. -/
def wrapUp (i n : Int) : Int := if i = 0 then n - 1 else i - 1

/-- Index below (or right of) `i` on a ring of `n` positions. -/
def wrapDown (i n : Int) : Int := if i + 1 = n then 0 else i + 1

/-- Sum of a 0/1 marking over a position and its two ring neighbours. -/
def ringSum (mark : Int → Int) (i n : Int) : Int :=
  mark (wrapUp i n) + mark i + mark (wrapDown i n)

/-- Marks the two adjacent ring positions `i0` and the one after it. -/
def pairMark (i0 n : Int) (i : Int) : Int := if i = i0 ∨ i = wrapDown i0 n then 1 else 0

/-- A 4 x 4 state whose live cells are the block at (3,3), wrapping over both
edges. -/
def blockState : Simulation :=
  { sampleState with
    grid := { rows := 4, columns := 4,
              cells := [[1, 0, 0, 1], [0, 0, 0, 0], [0, 0, 0, 0], [1, 0, 0, 1]] }
    tempGrid := { rows := 4, columns := 4,
                  cells := [[1, 1, 1, 1], [1, 1, 1, 1], [1, 1, 1, 1], [1, 1, 1, 1]] } }

/-- Marks the single ring position `i0`. -/
def singleMark (i0 : Int) (i : Int) : Int := if i = i0 then 1 else 0

/-- Marks the three adjacent ring positions centred at `i0`. -/
def tripleMark (i0 n : Int) (i : Int) : Int :=
  if i = wrapUp i0 n ∨ i = i0 ∨ i = wrapDown i0 n then 1 else 0

/-- A 5 x 5 state whose live cells are the horizontal blinker centred at (0,0),
wrapping over the left edge. -/
def blinkerState : Simulation :=
  { sampleState with
    grid := { rows := 5, columns := 5,
              cells := [[1, 1, 0, 0, 1], [0, 0, 0, 0, 0], [0, 0, 0, 0, 0], [0, 0, 0, 0, 0],
                [0, 0, 0, 0, 0]] }
    tempGrid := { rows := 5, columns := 5,
                  cells := [[0, 0, 0, 0, 0], [0, 0, 0, 0, 0], [0, 0, 0, 0, 0], [0, 0, 0, 0, 0],
                    [0, 0, 0, 0, 0]] } }

/-- The local `generationsUntilMutation` of `DrawUI`: the countdown on display. -/
def Simulation.generationsUntilMutation (s : Simulation) : Int :=
  s.mutationInterval - s.generationsSinceLastMutation

/-- The interval is positive and the counter since the last mutation lies between
0 and the interval. -/
def Simulation.CountdownInv (s : Simulation) : Prop :=
  1 ≤ s.mutationInterval ∧ 0 ≤ s.generationsSinceLastMutation ∧
    s.generationsSinceLastMutation ≤ s.mutationInterval

instance (s : Simulation) : Decidable s.CountdownInv := by
  unfold Simulation.CountdownInv
  infer_instance

/-- The public operations of `Simulation` that change its state, other than
`SetMutationInterval` and `SetCellValue`. -/
inductive Operation where
  | update
  | mutateRules
  | resetRules
  | clearGrid
  | createRandomState
  | toggleCell (row column : Int)
  | start
  | stop

/-- One operation applied to a state and a generator. -/
def Simulation.perform (s : Simulation) (rs : RandomSource) :
    Operation → Option (Simulation × RandomSource)
  | .update => s.Update rs
  | .mutateRules => some (s.MutateRules rs)
  | .resetRules => some (s.ResetRules, rs)
  | .clearGrid => some (s.ClearGrid, rs)
  | .createRandomState => some (s.CreateRandomState rs)
  | .toggleCell row column => (s.ToggleCell row column).map (fun s2 => (s2, rs))
  | .start => some (s.Start, rs)
  | .stop => some (s.Stop, rs)

/-- A sequence of operations applied in order. -/
def Simulation.performAll :
    List Operation → Simulation → RandomSource → Option (Simulation × RandomSource)
  | [], s, rs => some (s, rs)
  | op :: rest, s, rs =>
    (s.perform rs op).bind (fun r => Simulation.performAll rest r.1 r.2)

/-- A 1 x 1 state whose only cell is alive. -/
def singleCellState : Simulation :=
  { sampleState with
    grid := { rows := 1, columns := 1, cells := [[1]] }
    tempGrid := { rows := 1, columns := 1, cells := [[0]] } }

/-- In the words of the design document (4.3, strategies 1 and 2): the new vector
is the old one with the element at the drawn position removed (coin 0 and more
than one element), or else the old one with the drawn count inserted at its
sorted place when it is absent, or else the old one. -/
def AddOrRemoveOutcome (old new : List Int) (coin idx newCount : Int) : Prop :=
  (coin = 0 ∧ 1 < old.length ∧ 0 ≤ idx ∧ idx < old.length ∧ new = old.eraseIdx idx.toNat) ∨
  (¬(coin = 0 ∧ 1 < old.length) ∧ newCount ∉ old ∧
    new = old.orderedInsert (fun a b => a ≤ b) newCount) ∨
  (¬(coin = 0 ∧ 1 < old.length) ∧ newCount ∈ old ∧ new = old)

/-- The decimal digit character of a count in [0,8]. -/
def digitChar (n : Int) : Char := Char.ofNat (48 + n.toNat)

/-- A generator that answers every request with the lower end of the range. -/
def lowSource : RandomSource := { outcome := fun _ lo _ => lo, used := 0 }

/-- A generator that replays a fixed list of outcomes, clamped into the range
requested, and answers with the lower end once the list is exhausted. -/
def replaySource (draws : List Int) : RandomSource :=
  { outcome := fun k lo hi => max lo (min hi (draws.getD k lo)), used := 0 }

/-! ## Facts about the standard-library helpers -/

theorem sort_sorted (l : List Int) : (sort l).Sorted (fun a b => a ≤ b) :=
  List.sorted_insertionSort _ l

theorem sort_perm (l : List Int) : (sort l).Perm l :=
  List.perm_insertionSort _ l

theorem mem_sort {x : Int} {l : List Int} : x ∈ sort l ↔ x ∈ l :=
  (sort_perm l).mem_iff

theorem sort_nodup {l : List Int} (h : l.Nodup) : (sort l).Nodup :=
  (sort_perm l).nodup_iff.mpr h

theorem sort_ne_nil {l : List Int} (h : l ≠ []) : sort l ≠ [] := by
  intro hs
  have := (sort_perm l).length_eq
  rw [hs] at this
  exact h (List.length_eq_zero.mp this.symm)

theorem mem_unique {x : Int} : ∀ {l : List Int}, x ∈ unique l ↔ x ∈ l
  | [] => by simp [unique]
  | [a] => by simp [unique]
  | a :: b :: rest => by
    have ih := @mem_unique x (b :: rest)
    unfold unique
    split_ifs with hab
    · rw [ih, hab]; simp
    · rw [List.mem_cons, ih]
      exact List.mem_cons.symm

theorem unique_ne_nil : ∀ {l : List Int}, l ≠ [] → unique l ≠ []
  | [], h => absurd rfl h
  | [a], _ => by simp [unique]
  | a :: b :: rest, _ => by
    have ih := @unique_ne_nil (b :: rest) (by simp)
    unfold unique
    split_ifs
    · exact ih
    · simp

theorem unique_sorted_lt : ∀ {l : List Int}, l.Sorted (fun a b => a ≤ b) →
    (unique l).Sorted (fun a b => a < b)
  | [], _ => by simp [unique]
  | [a], _ => by simp [unique]
  | a :: b :: rest, h => by
    have htail : (b :: rest).Sorted (fun a b => a ≤ b) := h.of_cons
    have ih := unique_sorted_lt htail
    unfold unique
    split_ifs with hab
    · exact ih
    · refine List.sorted_cons.mpr ⟨?_, ih⟩
      intro y hy
      have hy2 : y ∈ b :: rest := mem_unique.mp hy
      have hab2 : a ≤ b := List.rel_of_sorted_cons h b (List.mem_cons_self _ _)
      have hby : b ≤ y := by
        rcases List.mem_cons.mp hy2 with rfl | hr
        · exact le_refl _
        · exact List.rel_of_sorted_cons htail y hr
      omega

theorem sorted_lt_wellFormed {l : List Int} (hne : l ≠ []) (hs : l.Sorted (fun a b => a < b))
    (hr : ∀ x ∈ l, 0 ≤ x ∧ x ≤ 8) : CountsWellFormed l :=
  ⟨hne, hs.imp (fun h => le_of_lt h), hs.imp (fun h => ne_of_lt h), hr⟩

/-! ## The generator is only advanced, never altered -/

theorem GetRandomValue_outcome (rs : RandomSource) (lo hi : Int) :
    (GetRandomValue rs lo hi).2.outcome = rs.outcome := rfl

theorem GetRandomValue_inRange {rs : RandomSource} (h : rs.InRange) {lo hi : Int}
    (hle : lo ≤ hi) : lo ≤ (GetRandomValue rs lo hi).1 ∧ (GetRandomValue rs lo hi).1 ≤ hi :=
  h rs.used lo hi hle

theorem InRange_of_outcome {rs rs2 : RandomSource} (h : rs2.outcome = rs.outcome)
    (hr : rs.InRange) : rs2.InRange := by
  intro k lo hi hle
  rw [h]
  exact hr k lo hi hle

theorem addOrRemoveCount_outcome (counts : List Int) (rs : RandomSource) :
    (addOrRemoveCount counts rs).2.outcome = rs.outcome := by
  unfold addOrRemoveCount
  simp only []
  split_ifs <;> rfl

theorem randomCounts_outcome : ∀ (n : Nat) (counts : List Int) (rs : RandomSource),
    (randomCounts n counts rs).2.outcome = rs.outcome
  | 0, _, _ => rfl
  | n + 1, counts, rs => by
    unfold randomCounts
    simp only []
    rw [randomCounts_outcome n]
    rfl

theorem mutateStrategy_outcome (rules : LifeRules) (rs : RandomSource) :
    (mutateStrategy rules rs).2.outcome = rs.outcome := by
  unfold mutateStrategy
  simp only []
  split_ifs
  · exact addOrRemoveCount_outcome _ _
  · exact addOrRemoveCount_outcome _ _
  · rfl
  · rfl
  · show (randomCounts _ _ _).2.outcome = rs.outcome
    rw [randomCounts_outcome, GetRandomValue_outcome, randomCounts_outcome]
    rfl

theorem MutateRules_outcome (s : Simulation) (rs : RandomSource) :
    (s.MutateRules rs).2.outcome = rs.outcome :=
  mutateStrategy_outcome _ _

/-! ## Each strategy keeps a vector well formed -/

theorem addOrRemoveCount_wellFormed {counts : List Int} {rs : RandomSource}
    (hr : rs.InRange) (hw : CountsWellFormed counts) :
    CountsWellFormed (addOrRemoveCount counts rs).1 := by
  obtain ⟨hne, hs, hnd, hrange⟩ := hw
  have hr1 : (GetRandomValue rs 0 1).2.InRange := InRange_of_outcome rfl hr
  unfold addOrRemoveCount
  simp only []
  split_ifs with h1 h2
  · -- removal of the element at a valid position
    have hlen : (0 : Int) ≤ (counts.length : Int) - 1 := by omega
    obtain ⟨hlo, hhi⟩ := GetRandomValue_inRange hr1 hlen
    have hsub := List.eraseIdx_sublist counts
      (GetRandomValue (GetRandomValue rs 0 1).2 0 ((counts.length : Int) - 1)).1.toNat
    refine ⟨?_, hs.sublist hsub, hnd.sublist hsub, fun x hx => hrange x (hsub.subset hx)⟩
    intro hnil
    have hl := congrArg List.length hnil
    rw [List.length_eraseIdx] at hl
    split_ifs at hl <;> simp at hl <;> omega
  · exact ⟨hne, hs, hnd, hrange⟩
  · -- a new count is appended and the vector sorted
    have h8 : (0 : Int) ≤ 8 := by decide
    obtain ⟨hlo, hhi⟩ := GetRandomValue_inRange hr1 h8
    refine ⟨sort_ne_nil (by simp), sort_sorted _, sort_nodup ?_, ?_⟩
    · exact List.Nodup.append hnd (List.nodup_singleton _) (by simpa using h2)
    · intro x hx
      rcases List.mem_append.mp (mem_sort.mp hx) with hx | hx
      · exact hrange x hx
      · rw [List.mem_singleton.mp hx]; exact ⟨hlo, hhi⟩

theorem shiftCounts_wellFormed {counts : List Int} (shift : Int) (hne : counts ≠ []) :
    CountsWellFormed (shiftCounts counts shift) := by
  unfold shiftCounts
  refine sorted_lt_wellFormed (unique_ne_nil (sort_ne_nil (by simpa using hne)))
    (unique_sorted_lt (sort_sorted _)) ?_
  intro x hx
  obtain ⟨y, _, rfl⟩ := List.mem_map.mp (mem_sort.mp (mem_unique.mp hx))
  omega

theorem randomCounts_spec : ∀ (n : Nat) (counts : List Int) (rs : RandomSource),
    rs.InRange → counts.Nodup → (∀ x ∈ counts, 0 ≤ x ∧ x ≤ 8) →
    (randomCounts n counts rs).1.Nodup ∧ (∀ x ∈ (randomCounts n counts rs).1, 0 ≤ x ∧ x ≤ 8) ∧
      (counts ≠ [] ∨ 0 < n → (randomCounts n counts rs).1 ≠ []) ∧
      (randomCounts n counts rs).1.length ≤ counts.length + n
  | 0, counts, rs, _, hnd, hrange => by
    simp only [randomCounts]
    exact ⟨hnd, hrange, fun h => h.resolve_right (by decide), le_refl _⟩
  | n + 1, counts, rs, hr, hnd, hrange => by
    have h8 : (0 : Int) ≤ 8 := by decide
    have hdraw := GetRandomValue_inRange hr h8
    have hr2 : (GetRandomValue rs 0 8).2.InRange := InRange_of_outcome rfl hr
    unfold randomCounts
    simp only []
    split_ifs with hmem
    · obtain ⟨a, b, c, d⟩ := randomCounts_spec n _ _ hr2 hnd hrange
      refine ⟨a, b, fun _ => c (Or.inl ?_), by omega⟩
      intro hnil
      rw [hnil] at hmem
      simp at hmem
    · have hnd2 : (counts ++ [(GetRandomValue rs 0 8).1]).Nodup :=
        List.Nodup.append hnd (List.nodup_singleton _) (by simpa using hmem)
      have hrange2 : ∀ x ∈ counts ++ [(GetRandomValue rs 0 8).1], 0 ≤ x ∧ x ≤ 8 := by
        intro x hx
        rcases List.mem_append.mp hx with hx | hx
        · exact hrange x hx
        · rw [List.mem_singleton.mp hx]; exact hdraw
      obtain ⟨a, b, c, d⟩ := randomCounts_spec n _ _ hr2 hnd2 hrange2
      refine ⟨a, b, fun _ => c (Or.inl (by simp)), ?_⟩
      simp only [List.length_append, List.length_singleton] at d
      omega

theorem mutateStrategy_wellFormed {rules : LifeRules} {rs : RandomSource}
    (hr : rs.InRange) (hw : rules.WellFormed) : (mutateStrategy rules rs).1.WellFormed := by
  have hr1 : (GetRandomValue rs 0 9).2.InRange := InRange_of_outcome rfl hr
  unfold mutateStrategy
  simp only []
  split_ifs
  · exact ⟨addOrRemoveCount_wellFormed hr1 hw.1, hw.2⟩
  · exact ⟨hw.1, addOrRemoveCount_wellFormed hr1 hw.2⟩
  · exact ⟨shiftCounts_wellFormed _ hw.1.1, shiftCounts_wellFormed _ hw.2.1⟩
  · exact ⟨shiftCounts_wellFormed _ hw.1.1, shiftCounts_wellFormed _ hw.2.1⟩
  · have h14 : (1 : Int) ≤ 4 := by decide
    have h13 : (1 : Int) ≤ 3 := by decide
    have hn := GetRandomValue_inRange hr1 h14
    have hr2 : (GetRandomValue (GetRandomValue rs 0 9).2 1 4).2.InRange :=
      InRange_of_outcome rfl hr1
    have hs := randomCounts_spec (GetRandomValue (GetRandomValue rs 0 9).2 1 4).1.toNat []
      _ hr2 List.nodup_nil (by simp)
    have hr3 := InRange_of_outcome (randomCounts_outcome
      (GetRandomValue (GetRandomValue rs 0 9).2 1 4).1.toNat [] _) hr2
    have hr4 := InRange_of_outcome (GetRandomValue_outcome
      (randomCounts (GetRandomValue (GetRandomValue rs 0 9).2 1 4).1.toNat []
        (GetRandomValue (GetRandomValue rs 0 9).2 1 4).2).2 1 3) hr3
    have hm := GetRandomValue_inRange hr3 h13
    have hb := randomCounts_spec (GetRandomValue (randomCounts
      (GetRandomValue (GetRandomValue rs 0 9).2 1 4).1.toNat []
        (GetRandomValue (GetRandomValue rs 0 9).2 1 4).2).2 1 3).1.toNat [] _ hr4
      List.nodup_nil (by simp)
    refine ⟨⟨sort_ne_nil (hs.2.2.1 (Or.inr (by omega))), sort_sorted _, sort_nodup hs.1,
        fun x hx => hs.2.1 x (mem_sort.mp hx)⟩,
      ⟨sort_ne_nil (hb.2.2.1 (Or.inr (by omega))), sort_sorted _, sort_nodup hb.1,
        fun x hx => hb.2.1 x (mem_sort.mp hx)⟩⟩

theorem ensureNonEmpty_of_ne_nil {rules : LifeRules} (hs : rules.survivalCounts ≠ [])
    (hb : rules.birthCounts ≠ []) : ensureNonEmpty rules = rules := by
  unfold ensureNonEmpty
  simp [List.isEmpty_iff, hs, hb]

theorem mutateLifeRules_wellFormed {rules : LifeRules} {rs : RandomSource}
    (hr : rs.InRange) (hw : rules.WellFormed) : (mutateLifeRules rules rs).1.WellFormed := by
  have h := mutateStrategy_wellFormed hr hw
  unfold mutateLifeRules
  simp only []
  rw [ensureNonEmpty_of_ne_nil h.1.1 h.2.1]
  exact h

theorem MutateRulesN_wellFormed : ∀ (n : Nat) (s : Simulation) (rs : RandomSource),
    rs.InRange → s.currentRules.WellFormed →
    (Simulation.MutateRulesN n s rs).1.currentRules.WellFormed
  | 0, _, _, _, hw => hw
  | n + 1, s, rs, hr, hw => by
    unfold Simulation.MutateRulesN
    exact MutateRulesN_wellFormed n _ _ (InRange_of_outcome (MutateRules_outcome s rs) hr)
      (mutateLifeRules_wellFormed hr hw)

theorem lowSource_inRange : lowSource.InRange :=
  fun _ _ _ hle => ⟨le_refl _, hle⟩

theorem replaySource_inRange (draws : List Int) : (replaySource draws).InRange := by
  intro k lo hi hle
  simp only [replaySource]
  omega

/-- C1. `MutateRules` preserves rule-set well-formedness.  For every state whose
current rule set has both vectors non-empty, sorted ascending, duplicate-free
and within [0,8], and for every generator whose draws lie in the range requested,
the rule set after one `MutateRules` call is again well formed, and so is the
rule set after any number `n` of consecutive calls. -/
theorem MutateRules_preserves_wellFormed (s : Simulation) (rs : RandomSource)
    (hr : rs.InRange) (hw : s.currentRules.WellFormed) :
    (s.MutateRules rs).1.currentRules.WellFormed ∧
      ∀ n : Nat, (Simulation.MutateRulesN n s rs).1.currentRules.WellFormed :=
  ⟨mutateLifeRules_wellFormed hr hw, fun n => MutateRulesN_wellFormed n s rs hr hw⟩

theorem MutateRules_preserves_wellFormed_witness :
    (replaySource [9, 4, 5, 5, 1, 2, 3, 8, 8, 0]).InRange ∧
      (Simulation.new 750 750 25).currentRules.WellFormed ∧
      ((Simulation.new 750 750 25).MutateRules
        (replaySource [9, 4, 5, 5, 1, 2, 3, 8, 8, 0])).1.currentRules.WellFormed ∧
      (Simulation.MutateRulesN 1000 (Simulation.new 750 750 25)
        (replaySource [9, 4, 5, 5, 1, 2, 3, 8, 8, 0])).1.currentRules.WellFormed :=
  ⟨replaySource_inRange _, by decide,
    (MutateRules_preserves_wellFormed _ _ (replaySource_inRange _) (by decide)).1,
    (MutateRules_preserves_wellFormed _ _ (replaySource_inRange _) (by decide)).2 1000⟩

/-- C4. `MutateRules` never leaves an empty vector, whatever the input rule set
(empty, unsorted or with repeats) and whatever the draws: afterwards both
`survivalCounts` and `birthCounts` are non-empty; when the strategy left the
survival vector empty the result is exactly `[2]`, and when it left the birth
vector empty the result is exactly `[3]`. -/
theorem MutateRules_never_empty (s : Simulation) (rs : RandomSource) :
    (s.MutateRules rs).1.currentRules.survivalCounts ≠ [] ∧
      (s.MutateRules rs).1.currentRules.birthCounts ≠ [] ∧
      ((mutateStrategy s.currentRules rs).1.survivalCounts = [] →
        (s.MutateRules rs).1.currentRules.survivalCounts = [2]) ∧
      ((mutateStrategy s.currentRules rs).1.birthCounts = [] →
        (s.MutateRules rs).1.currentRules.birthCounts = [3]) := by
  simp only [Simulation.MutateRules, mutateLifeRules, ensureNonEmpty]
  generalize (mutateStrategy s.currentRules rs).1 = m
  rcases m with ⟨sv, bt⟩
  cases sv <;> cases bt <;> simp


theorem MutateRules_never_empty_witness :
    (mutateStrategy { survivalCounts := [], birthCounts := [] }
        (replaySource [6, 0])).1.survivalCounts = [] ∧
      (mutateStrategy { survivalCounts := [], birthCounts := [] }
        (replaySource [6, 0])).1.birthCounts = [] ∧
      (Simulation.MutateRules
        { sampleState with currentRules := { survivalCounts := [], birthCounts := [] } }
        (replaySource [6, 0])).1.currentRules.survivalCounts = [2] ∧
      (Simulation.MutateRules
        { sampleState with currentRules := { survivalCounts := [], birthCounts := [] } }
        (replaySource [6, 0])).1.currentRules.birthCounts = [3] :=
  ⟨by decide, by decide,
    (MutateRules_never_empty
      { sampleState with currentRules := { survivalCounts := [], birthCounts := [] } }
      (replaySource [6, 0])).2.2.1 (by decide),
    (MutateRules_never_empty
      { sampleState with currentRules := { survivalCounts := [], birthCounts := [] } }
      (replaySource [6, 0])).2.2.2 (by decide)⟩

/-! ## The canonical text form -/

theorem to_string_digit {x : Int} (h0 : 0 ≤ x) (h8 : x ≤ 8) :
    to_string x = String.mk [digitChar x] := by
  interval_cases x <;> rfl

theorem digitChar_mono {x y : Int} (hx0 : 0 ≤ x) (hx8 : x ≤ 8) (hy0 : 0 ≤ y) (hy8 : y ≤ 8)
    (hxy : x ≤ y) : digitChar x ≤ digitChar y := by
  interval_cases x <;> interval_cases y <;> decide

theorem foldl_to_string : ∀ (l : List Int) (init : String), (∀ x ∈ l, 0 ≤ x ∧ x ≤ 8) →
    l.foldl (fun acc b => acc ++ to_string b) init = init ++ String.mk (l.map digitChar)
  | [], init, _ => by
    apply String.ext
    simp
  | x :: rest, init, h => by
    have hx := h x (List.mem_cons_self _ _)
    rw [List.foldl_cons, foldl_to_string rest _ (fun y hy => h y (List.mem_cons_of_mem _ hy)),
      to_string_digit hx.1 hx.2]
    apply String.ext
    simp

theorem map_digitChar_sorted {l : List Int} (h : ∀ x ∈ l, 0 ≤ x ∧ x ≤ 8)
    (hs : l.Sorted (fun a b => a ≤ b)) : (l.map digitChar).Sorted (fun a b => a ≤ b) := by
  unfold List.Sorted
  rw [List.pairwise_map]
  exact List.Pairwise.imp_of_mem
    (fun {a b} ha hb hab => digitChar_mono (h a ha).1 (h a ha).2 (h b hb).1 (h b hb).2 hab) hs

/-- C9. Canonical text form.  For a rule set whose counts are in [0,8],
`ToString` is "B", then one decimal digit per birth count in stored order, then
"/S", then one digit per survival count in stored order, nothing in between; for
a well-formed rule set both digit runs are ascending; the default rule set gives
"B3/S23" and birth {3,6} with survival {2,3} gives "B36/S23".  The embedding of
the const method returns the string only, so the rule set is untouched. -/
theorem ToString_canonical (r : LifeRules)
    (hb : ∀ x ∈ r.birthCounts, 0 ≤ x ∧ x ≤ 8) (hs : ∀ x ∈ r.survivalCounts, 0 ≤ x ∧ x ≤ 8) :
    r.ToString = "B" ++ String.mk (r.birthCounts.map digitChar) ++ "/S"
        ++ String.mk (r.survivalCounts.map digitChar) ∧
      (r.WellFormed → (r.birthCounts.map digitChar).Sorted (fun a b => a ≤ b) ∧
        (r.survivalCounts.map digitChar).Sorted (fun a b => a ≤ b)) ∧
      LifeRules.new.ToString = "B3/S23" ∧
      ({ survivalCounts := [2, 3], birthCounts := [3, 6] } : LifeRules).ToString = "B36/S23" := by
  refine ⟨?_, fun hw => ⟨map_digitChar_sorted hb hw.2.2.1, map_digitChar_sorted hs hw.1.2.1⟩,
    by decide, by decide⟩
  unfold LifeRules.ToString
  simp only []
  rw [foldl_to_string _ _ hb, foldl_to_string _ _ hs]

theorem ToString_canonical_witness :
    (∀ x ∈ ({ survivalCounts := [0, 4, 8], birthCounts := [1, 7] } : LifeRules).birthCounts,
        0 ≤ x ∧ x ≤ 8) ∧
      (∀ x ∈ ({ survivalCounts := [0, 4, 8], birthCounts := [1, 7] } : LifeRules).survivalCounts,
        0 ≤ x ∧ x ≤ 8) ∧
      ({ survivalCounts := [0, 4, 8], birthCounts := [1, 7] } : LifeRules).ToString
        = "B17/S048" :=
  ⟨by decide, by decide,
    (ToString_canonical { survivalCounts := [0, 4, 8], birthCounts := [1, 7] }
      (by decide) (by decide)).1.trans (by decide)⟩

/-! ## Reading and writing a rectangular grid -/

theorem getValue_nat (g : Grid) (i j : Nat) :
    g.GetValue i j = (g.cells[i]?).bind (fun cellRow => cellRow[j]?) := by
  simp [Grid.GetValue]

theorem setValue_nat (g : Grid) (i j : Nat) (v : Int) :
    g.SetValue i j v = (g.cells[i]?).bind (fun cellRow =>
      if j < cellRow.length then some { g with cells := g.cells.set i (cellRow.set j v) }
      else none) := by
  simp [Grid.SetValue]

theorem inBounds_nat {g : Grid} {row column : Int} (h : g.InBounds row column) :
    ∃ i j : Nat, row = i ∧ column = j ∧ i < g.rows.toNat ∧ j < g.columns.toNat := by
  obtain ⟨h1, h2, h3, h4⟩ := h
  refine ⟨row.toNat, column.toNat, ?_, ?_, ?_, ?_⟩ <;> omega

theorem getValue_some {g : Grid} (hw : g.WellFormed) {row column : Int}
    (h : g.InBounds row column) : ∃ v, g.GetValue row column = some v := by
  obtain ⟨i, j, rfl, rfl, hi, hj⟩ := inBounds_nat h
  obtain ⟨_, _, hlen, hrow⟩ := hw
  have hi2 : i < g.cells.length := by omega
  have hj2 : j < (g.cells[i]).length := by
    rw [hrow _ (List.getElem_mem _)]; exact hj
  exact ⟨(g.cells[i])[j], by
    rw [getValue_nat, List.getElem?_eq_getElem hi2, Option.some_bind,
      List.getElem?_eq_getElem hj2]⟩

theorem getValue_binary {g : Grid} (hb : g.Binary) {row column : Int} {v : Int}
    (h : g.GetValue row column = some v) : v = 0 ∨ v = 1 := by
  unfold Grid.GetValue at h
  split_ifs at h
  obtain ⟨cellRow, h1, h2⟩ := Option.bind_eq_some.mp h
  exact hb cellRow (List.getElem?_mem h1) v (List.getElem?_mem h2)

theorem cell_of_getValue {g : Grid} {row column v : Int} (h : g.GetValue row column = some v) :
    g.cell row column = v := by
  simp [Grid.cell, h]

theorem getValue_eq_cell {g : Grid} (hw : g.WellFormed) {row column : Int}
    (h : g.InBounds row column) : g.GetValue row column = some (g.cell row column) := by
  obtain ⟨v, hv⟩ := getValue_some hw h
  rw [hv, cell_of_getValue hv]

theorem setValue_spec {g : Grid} (hw : g.WellFormed) {row column : Int}
    (h : g.InBounds row column) (v : Int) :
    ∃ g2, g.SetValue row column v = some g2 ∧ g2.WellFormed ∧ g2.rows = g.rows ∧
      g2.columns = g.columns ∧ g2.GetValue row column = some v ∧
      ∀ r c : Int, g.InBounds r c → ¬(r = row ∧ c = column) →
        g2.GetValue r c = g.GetValue r c := by
  obtain ⟨i, j, rfl, rfl, hi, hj⟩ := inBounds_nat h
  obtain ⟨h0r, h0c, hlen, hrow⟩ := hw
  have hi2 : i < g.cells.length := by omega
  have hj2 : j < (g.cells[i]).length := by
    rw [hrow _ (List.getElem_mem _)]; exact hj
  refine ⟨{ g with cells := g.cells.set i ((g.cells[i]).set j v) }, ?_, ?_, rfl, rfl, ?_, ?_⟩
  · rw [setValue_nat, List.getElem?_eq_getElem hi2, Option.some_bind, if_pos hj2]
  · refine ⟨h0r, h0c, by simpa using hlen, ?_⟩
    intro cellRow hmem
    rcases List.mem_or_eq_of_mem_set hmem with hm | rfl
    · exact hrow _ hm
    · rw [List.length_set]; exact hrow _ (List.getElem_mem _)
  · rw [getValue_nat]
    simp [List.getElem?_set, hi2, hj2]
  · intro r c hrc hne
    obtain ⟨i2, j2, rfl, rfl, _, _⟩ := inBounds_nat hrc
    rw [getValue_nat, getValue_nat]
    by_cases hii : i = i2
    · subst hii
      have hjj : j ≠ j2 := by
        intro hjj; exact hne ⟨rfl, by rw [hjj]⟩
      simp [List.getElem?_set, hi2, hjj]
    · simp [List.getElem?_set, hii]

theorem grid_ext {g1 g2 : Grid} (hw1 : g1.WellFormed) (hw2 : g2.WellFormed)
    (hr : g1.rows = g2.rows) (hc : g1.columns = g2.columns)
    (h : ∀ row column : Int, g1.InBounds row column →
      g1.GetValue row column = g2.GetValue row column) : g1 = g2 := by
  obtain ⟨r1, c1, cells1⟩ := g1
  obtain ⟨r2, c2, cells2⟩ := g2
  simp only at hr hc
  subst hr hc
  obtain ⟨h0r, h0c, hlen1, hrow1⟩ := hw1
  obtain ⟨_, _, hlen2, hrow2⟩ := hw2
  simp only at h0r h0c hlen1 hrow1 hlen2 hrow2
  have hcells : cells1 = cells2 := by
    apply List.ext_getElem (by omega)
    intro i hi1 hi2
    have hl1 := hrow1 _ (List.getElem_mem hi1)
    have hl2 := hrow2 _ (List.getElem_mem hi2)
    apply List.ext_getElem (by omega)
    intro j hj1 hj2
    have hb : Grid.InBounds ⟨r1, c1, cells1⟩ (i : Int) (j : Int) := by
      refine ⟨by omega, ?_, by omega, ?_⟩ <;> simp only <;> omega
    have := h i j hb
    rw [getValue_nat, getValue_nat] at this
    simp only [List.getElem?_eq_getElem hi1, List.getElem?_eq_getElem hi2, Option.some_bind,
      List.getElem?_eq_getElem hj1, List.getElem?_eq_getElem hj2] at this
    exact Option.some.inj this
  rw [hcells]

theorem binary_of_getValue {g : Grid} (hw : g.WellFormed)
    (h : ∀ row column : Int, g.InBounds row column →
      g.GetValue row column = some 0 ∨ g.GetValue row column = some 1) : g.Binary := by
  intro cellRow hmem v hv
  obtain ⟨i, hi, rfl⟩ := List.getElem_of_mem hmem
  obtain ⟨j, hj, rfl⟩ := List.getElem_of_mem hv
  obtain ⟨h0r, h0c, hlen, hrow⟩ := hw
  have hl := hrow _ (List.getElem_mem hi)
  have hb : g.InBounds (i : Int) (j : Int) := ⟨by omega, by omega, by omega, by omega⟩
  have := h i j hb
  rw [getValue_nat] at this
  simp only [List.getElem?_eq_getElem hi, Option.some_bind, List.getElem?_eq_getElem hj] at this
  rcases this with h0 | h1
  · exact Or.inl (Option.some.inj h0)
  · exact Or.inr (Option.some.inj h1)

/-! ## Counting neighbours -/

theorem wrap_eq {i d n : Int} (hi0 : 0 ≤ i) (hin : i < n) (hd : -1 ≤ d) :
    Int.tmod (i + d + n) n = (i + d) % n := by
  rw [Int.tmod_eq_emod (by omega) (by omega), Int.add_emod_self]

theorem wrap_bounds {i d n : Int} (hi0 : 0 ≤ i) (hin : i < n) (hd : -1 ≤ d) :
    0 ≤ Int.tmod (i + d + n) n ∧ Int.tmod (i + d + n) n < n := by
  rw [wrap_eq hi0 hin hd]
  exact ⟨Int.emod_nonneg _ (by omega), Int.emod_lt_of_pos _ (by omega)⟩

theorem offset_bounds {offset : Int × Int} (h : offset ∈ neighborOffsets) :
    -1 ≤ offset.1 ∧ -1 ≤ offset.2 := by
  simp only [neighborOffsets, List.mem_cons, List.mem_singleton, List.not_mem_nil,
    or_false] at h
  rcases h with rfl | rfl | rfl | rfl | rfl | rfl | rfl | rfl <;> decide

theorem countLoop_eq (g : Grid) (hr : g.rows ≠ 0) (hc : g.columns ≠ 0) (row column : Int) :
    ∀ (l : List (Int × Int)) (acc : Int),
    (∀ offset ∈ l, ∃ v, g.GetValue (Int.tmod (row + offset.1 + g.rows) g.rows)
      (Int.tmod (column + offset.2 + g.columns) g.columns) = some v) →
    l.foldlM (fun liveNeighbors offset =>
      if g.GetRows = 0 ∨ g.GetColumns = 0 then none
      else
        let neighborRow := Int.tmod (row + offset.1 + g.GetRows) g.GetRows
        let neighborColumn := Int.tmod (column + offset.2 + g.GetColumns) g.GetColumns
        (g.GetValue neighborRow neighborColumn).map (fun v => liveNeighbors + v)) acc
      = some (acc + (l.map (fun offset =>
          g.cell (Int.tmod (row + offset.1 + g.rows) g.rows)
            (Int.tmod (column + offset.2 + g.columns) g.columns))).sum)
  | [], acc, _ => by simp
  | offset :: rest, acc, h => by
    obtain ⟨v, hv⟩ := h offset (List.mem_cons_self _ _)
    have ih := countLoop_eq g hr hc row column rest (acc + v)
      (fun o ho => h o (List.mem_cons_of_mem _ ho))
    simp only [Grid.GetRows, Grid.GetColumns, hr, hc, or_self, if_false] at ih ⊢
    rw [List.foldlM_cons]
    simp only [hv, Option.map_some', Option.some_bind, Option.bind_eq_bind]
    rw [ih, List.map_cons, List.sum_cons, cell_of_getValue hv, add_assoc]

theorem CountLiveNeighbors_eq {s : Simulation} (hw : s.grid.WellFormed) {row column : Int}
    (h : s.grid.InBounds row column) :
    s.CountLiveNeighbors row column = some (s.grid.neighbourSum row column) := by
  obtain ⟨h1, h2, h3, h4⟩ := h
  unfold Simulation.CountLiveNeighbors Grid.neighbourSum
  rw [countLoop_eq s.grid (by omega) (by omega) row column neighborOffsets 0]
  · simp
  · intro offset ho
    obtain ⟨hd1, hd2⟩ := offset_bounds ho
    obtain ⟨a1, a2⟩ := wrap_bounds h1 h2 hd1
    obtain ⟨b1, b2⟩ := wrap_bounds h3 h4 hd2
    exact getValue_some hw ⟨a1, a2, b1, b2⟩

/-! ## The update loops -/

theorem stepCell_tempGrid (s : Simulation) (t : Grid) (row column : Int) :
    ({ s with tempGrid := t } : Simulation).stepCell row column = s.stepCell row column := rfl

theorem updateCell_spec (s : Simulation) (hg : s.grid.WellFormed) {t : Grid}
    (ht : t.WellFormed) (htr : t.rows = s.grid.rows) (htc : t.columns = s.grid.columns)
    {row column : Int} (h : s.grid.InBounds row column) :
    ∃ t2, ({ s with tempGrid := t } : Simulation).updateCell row column
        = some { s with tempGrid := t2 } ∧
      t2.WellFormed ∧ t2.rows = s.grid.rows ∧ t2.columns = s.grid.columns ∧
      t2.GetValue row column = some (s.stepCell row column) ∧
      ∀ r c : Int, s.grid.InBounds r c → ¬(r = row ∧ c = column) →
        t2.GetValue r c = t.GetValue r c := by
  have hin : t.InBounds row column := by
    unfold Grid.InBounds at h ⊢
    rw [htr, htc]; exact h
  obtain ⟨t2, hset, hw2, hr2, hc2, hget, hframe⟩ := setValue_spec ht hin (s.stepCell row column)
  refine ⟨t2, ?_, hw2, hr2.trans htr, hc2.trans htc, hget, ?_⟩
  · unfold Simulation.updateCell
    have hcount : ({ s with tempGrid := t } : Simulation).CountLiveNeighbors row column
        = some (s.grid.neighbourSum row column) :=
      @CountLiveNeighbors_eq { s with tempGrid := t } hg row column h
    rw [hcount, Option.some_bind]
    show (s.grid.GetValue row column).bind _ = _
    rw [getValue_eq_cell hg h, Option.some_bind]
    show (t.SetValue row column (s.stepCell row column)).map _ = _
    rw [hset]
    rfl
  · intro r c hrc hne
    refine hframe r c ?_ hne
    unfold Grid.InBounds at hrc ⊢
    rw [htr, htc]; exact hrc

theorem updateCells_spec (s : Simulation) (hg : s.grid.WellFormed) :
    ∀ (order : List (Int × Int)), (∀ p ∈ order, s.grid.InBounds p.1 p.2) →
    ∀ (t : Grid) (done : Int → Int → Prop), t.WellFormed → t.rows = s.grid.rows →
      t.columns = s.grid.columns →
      (∀ r c : Int, s.grid.InBounds r c → done r c →
        t.GetValue r c = some (s.stepCell r c)) →
    ∃ t2, ({ s with tempGrid := t } : Simulation).updateCells order
        = some { s with tempGrid := t2 } ∧
      t2.WellFormed ∧ t2.rows = s.grid.rows ∧ t2.columns = s.grid.columns ∧
      ∀ r c : Int, s.grid.InBounds r c → (done r c ∨ (r, c) ∈ order) →
        t2.GetValue r c = some (s.stepCell r c)
  | [], _, t, done, ht, htr, htc, hdone => by
    refine ⟨t, rfl, ht, htr, htc, ?_⟩
    intro r c hrc hd
    rcases hd with hd | hd
    · exact hdone r c hrc hd
    · simp at hd
  | p :: rest, hall, t, done, ht, htr, htc, hdone => by
    obtain ⟨t1, hstep, hw1, hr1, hc1, hget1, hframe1⟩ :=
      updateCell_spec s hg ht htr htc (hall p (List.mem_cons_self _ _))
    obtain ⟨t2, hrest, hw2, hr2, hc2, hget2⟩ :=
      updateCells_spec s hg rest (fun q hq => hall q (List.mem_cons_of_mem _ hq)) t1
        (fun r c => done r c ∨ (r, c) = p) hw1 hr1 hc1 (by
          intro r c hrc hd
          by_cases hp : r = p.1 ∧ c = p.2
          · rw [hp.1, hp.2]; exact hget1
          · rw [hframe1 r c hrc hp]
            rcases hd with hd | hd
            · exact hdone r c hrc hd
            · exact absurd ⟨congrArg Prod.fst hd, congrArg Prod.snd hd⟩ hp)
    refine ⟨t2, ?_, hw2, hr2, hc2, ?_⟩
    · unfold Simulation.updateCells at hrest ⊢
      rw [List.foldlM_cons, hstep]
      exact hrest
    · intro r c hrc hd
      apply hget2 r c hrc
      rcases hd with hd | hd
      · exact Or.inl (Or.inl hd)
      · rcases List.mem_cons.mp hd with hd | hd
        · exact Or.inl (Or.inr hd)
        · exact Or.inr hd

theorem foldlM_range_inv {σ : Type} (f : σ → Nat → Option σ) (inv : Nat → σ → Prop) :
    ∀ (n : Nat), (∀ k, k < n → ∀ st, inv k st → ∃ st2, f st k = some st2 ∧ inv (k + 1) st2) →
    ∀ s, inv 0 s → ∃ s2, (List.range n).foldlM f s = some s2 ∧ inv n s2
  | 0, _, s, h0 => ⟨s, rfl, h0⟩
  | n + 1, hstep, s, h0 => by
    obtain ⟨s1, hs1, hinv1⟩ :=
      foldlM_range_inv f inv n (fun k hk => hstep k (Nat.lt_succ_of_lt hk)) s h0
    obtain ⟨s2, hs2, hinv2⟩ := hstep n (Nat.lt_succ_self n) s1 hinv1
    refine ⟨s2, ?_, hinv2⟩
    rw [List.range_succ, List.foldlM_append, hs1]
    simp [hs2]

theorem updateRow_eq (s : Simulation) (row : Int) :
    s.updateRow row = s.updateCells
      ((List.range s.grid.columns.toNat).map (fun (c : Nat) => (row, (c : Int)))) := by
  unfold Simulation.updateRow Simulation.updateCells
  rw [List.foldlM_map]
  rfl

theorem updateGrid_spec (s : Simulation) (hc : s.Coherent) :
    ∃ t, s.updateGrid = some { s with tempGrid := t } ∧
      t.WellFormed ∧ t.rows = s.grid.rows ∧ t.columns = s.grid.columns ∧
      ∀ r c : Int, s.grid.InBounds r c → t.GetValue r c = some (s.stepCell r c) := by
  obtain ⟨hg, ht, htr, htc⟩ := hc
  have key := foldlM_range_inv (fun st (row : Nat) => Simulation.updateRow st row)
    (fun k st => ∃ t, st = { s with tempGrid := t } ∧ t.WellFormed ∧ t.rows = s.grid.rows ∧
      t.columns = s.grid.columns ∧
      ∀ r c : Int, s.grid.InBounds r c → r < (k : Int) → t.GetValue r c = some (s.stepCell r c))
    s.grid.rows.toNat ?_ s ⟨s.tempGrid, rfl, ht, htr, htc, fun r c hrc hr => by
      have := hrc.1
      omega⟩
  · obtain ⟨s2, hs2, t, rfl, hw, hr, hcol, hall⟩ := key
    refine ⟨t, hs2, hw, hr, hcol, fun r c hrc => hall r c hrc ?_⟩
    have := hrc.2.1
    omega
  · rintro k hk st ⟨t, rfl, hw, hr, hcol, hdone⟩
    obtain ⟨t2, hrun, hw2, hr2, hc2, hget2⟩ := updateCells_spec s hg
      ((List.range s.grid.columns.toNat).map (fun (c : Nat) => ((k : Int), (c : Int)))) (by
        intro p hp
        obtain ⟨c, hcmem, rfl⟩ := List.mem_map.mp hp
        have := List.mem_range.mp hcmem
        exact ⟨by omega, by omega, by omega, by omega⟩)
      t (fun r _ => r < (k : Int)) hw hr hcol hdone
    refine ⟨_, ?_, t2, rfl, hw2, hr2, hc2, ?_⟩
    · show Simulation.updateRow _ _ = _
      rw [updateRow_eq]
      exact hrun
    · intro r c hrc hlt
      apply hget2 r c hrc
      by_cases hrk : r < (k : Int)
      · exact Or.inl hrk
      · right
        obtain ⟨j, hj⟩ : ∃ j : Nat, c = j := ⟨c.toNat, by have := hrc.2.2.1; omega⟩
        have hrk2 : r = (k : Int) := by omega
        rw [hrk2, hj]
        refine List.mem_map.mpr ⟨j, List.mem_range.mpr ?_, rfl⟩
        have := hrc.2.2.2
        omega

theorem updateCells_covering (s : Simulation) (hc : s.Coherent) (order : List (Int × Int))
    (hin : ∀ p ∈ order, s.grid.InBounds p.1 p.2)
    (hall : ∀ r c : Int, s.grid.InBounds r c → (r, c) ∈ order) :
    s.updateCells order = s.updateGrid := by
  obtain ⟨t1, h1, hw1, hr1, hc1, hget1⟩ := updateGrid_spec s hc
  obtain ⟨t2, h2, hw2, hr2, hc2, hget2⟩ := updateCells_spec s hc.1 order hin s.tempGrid
    (fun _ _ => False) hc.2.1 hc.2.2.1 hc.2.2.2 (fun _ _ _ hf => hf.elim)
  have heq : t2 = t1 := by
    apply grid_ext hw2 hw1 (hr2.trans hr1.symm) (hc2.trans hc1.symm)
    intro r c hrc
    have hrc2 : s.grid.InBounds r c := by
      unfold Grid.InBounds at hrc ⊢
      rw [← hr2, ← hc2]; exact hrc
    rw [hget1 r c hrc2, hget2 r c hrc2 (Or.inr (hall r c hrc2))]
  rw [h1, ← heq]
  exact h2

/-! ## The sum of the code and the count of the design document -/

theorem sum_eq_countP {α : Type} (f : α → Int) (p : α → Bool) :
    ∀ (l : List α), (∀ o ∈ l, (p o = true ∧ f o = 1) ∨ (p o = false ∧ f o = 0)) →
    (l.map f).sum = ((l.countP p : Nat) : Int)
  | [], _ => by simp
  | o :: rest, h => by
    have ih := sum_eq_countP f p rest (fun x hx => h x (List.mem_cons_of_mem _ hx))
    rw [List.map_cons, List.sum_cons, ih, List.countP_cons]
    rcases h o (List.mem_cons_self _ _) with ⟨hp, hf⟩ | ⟨hp, hf⟩
    · simp [hp, hf]; omega
    · simp [hp, hf]

theorem neighbourSum_eq_liveNeighbours {g : Grid} (hw : g.WellFormed) (hb : g.Binary)
    {row column : Int} (h : g.InBounds row column) :
    g.neighbourSum row column = g.liveNeighbours row column := by
  obtain ⟨h1, h2, h3, h4⟩ := h
  unfold Grid.neighbourSum Grid.liveNeighbours
  apply sum_eq_countP
  intro offset ho
  obtain ⟨hd1, hd2⟩ := offset_bounds ho
  obtain ⟨a1, a2⟩ := wrap_bounds h1 h2 hd1
  obtain ⟨b1, b2⟩ := wrap_bounds h3 h4 hd2
  have hget := getValue_eq_cell hw ⟨a1, a2, b1, b2⟩
  rw [wrap_eq h1 h2 hd1, wrap_eq h3 h4 hd2] at hget ⊢
  rw [hget]
  rcases getValue_binary hb hget with h0 | h1
  · right; simp [h0]
  · left; simp [h1]

theorem stepCell_eq_nextCell {s : Simulation} (hw : s.grid.WellFormed) (hb : s.grid.Binary)
    {row column : Int} (h : s.grid.InBounds row column) :
    s.stepCell row column = s.grid.nextCell s.currentRules row column := by
  have hget := getValue_eq_cell hw h
  unfold Simulation.stepCell Grid.nextCell Simulation.ShouldCellLive
  rw [neighbourSum_eq_liveNeighbours hw hb h, hget]
  rcases getValue_binary hb hget with h0 | h1
  · simp [h0]
  · simp [h1]

/-! ## One call of `Update` -/

theorem mutateIfDue_frame (s : Simulation) (rs : RandomSource) :
    (s.mutateIfDue rs).1.grid = s.grid ∧ (s.mutateIfDue rs).1.tempGrid = s.tempGrid ∧
      (s.mutateIfDue rs).1.run = s.run ∧
      (s.mutateIfDue rs).1.mutationInterval = s.mutationInterval ∧
      (s.mutateIfDue rs).1.generationCount = s.generationCount ∧
      (s.mutateIfDue rs).2.outcome = rs.outcome := by
  unfold Simulation.mutateIfDue
  split_ifs
  · exact ⟨rfl, rfl, rfl, rfl, rfl, MutateRules_outcome s rs⟩
  · exact ⟨rfl, rfl, rfl, rfl, rfl, rfl⟩

theorem mutateIfDue_not_due {s : Simulation} (rs : RandomSource)
    (h : s.generationsSinceLastMutation < s.mutationInterval) : s.mutateIfDue rs = (s, rs) := by
  unfold Simulation.mutateIfDue
  rw [if_neg (by omega)]

theorem mutateIfDue_due {s : Simulation} (rs : RandomSource)
    (h : s.mutationInterval ≤ s.generationsSinceLastMutation) :
    s.mutateIfDue rs =
      ({ (s.MutateRules rs).1 with generationsSinceLastMutation := 0 }, (s.MutateRules rs).2) := by
  unfold Simulation.mutateIfDue
  rw [if_pos (by omega)]

theorem Update_running (s : Simulation) (rs : RandomSource) (hrun : s.run = true)
    (hc : s.Coherent) :
    ∃ t, s.Update rs = some ({ (s.mutateIfDue rs).1 with
          grid := t
          tempGrid := t
          generationCount := (s.mutateIfDue rs).1.generationCount + 1
          generationsSinceLastMutation :=
            (s.mutateIfDue rs).1.generationsSinceLastMutation + 1 }, (s.mutateIfDue rs).2) ∧
      t.WellFormed ∧ t.rows = s.grid.rows ∧ t.columns = s.grid.columns ∧
      ∀ r c : Int, s.grid.InBounds r c →
        t.GetValue r c = some ((s.mutateIfDue rs).1.stepCell r c) := by
  obtain ⟨hg, ht, hr, hcol, _, _⟩ := mutateIfDue_frame s rs
  have hc2 : (s.mutateIfDue rs).1.Coherent := by
    unfold Simulation.Coherent
    rw [hg, ht]; exact hc
  obtain ⟨t, hup, hw, htr, htc, hget⟩ := updateGrid_spec _ hc2
  refine ⟨t, ?_, hw, htr.trans (by rw [hg]), htc.trans (by rw [hg]), ?_⟩
  · unfold Simulation.Update Simulation.IsRunning
    rw [if_pos hrun, hup]
    rfl
  · intro r c hrc
    apply hget
    rw [hg]; exact hrc

theorem Update_not_due (s : Simulation) (rs : RandomSource) (hrun : s.run = true)
    (hdue : s.generationsSinceLastMutation < s.mutationInterval) (hc : s.Coherent) :
    ∃ t, s.Update rs = some ({ s with
          grid := t
          tempGrid := t
          generationCount := s.generationCount + 1
          generationsSinceLastMutation := s.generationsSinceLastMutation + 1 }, rs) ∧
      t.WellFormed ∧ t.rows = s.grid.rows ∧ t.columns = s.grid.columns ∧
      ∀ r c : Int, s.grid.InBounds r c → t.GetValue r c = some (s.stepCell r c) := by
  have h := Update_running s rs hrun hc
  rw [mutateIfDue_not_due rs hdue] at h
  exact h

/-- C2. One running `Update` in which no mutation is due computes the next
generation from the pre-update grid only.  For a coherent state with a 0/1 grid
the call returns, leaves the generator as it was, keeps the dimensions, and the
new cell at every position is 1 exactly when the old cell is 1 and its number of
live toroidal neighbours in the old grid is in `survivalCounts`, or the old cell
is 0 and that number is in `birthCounts`, and 0 otherwise (`Grid.nextCell`).  The
outcome is the same state for every content of the scratch grid, and running the
loop body over the positions in any order that covers the grid gives what the
row-by-row loops give. -/
theorem Update_next_generation (s : Simulation) (rs : RandomSource)
    (hrun : s.run = true) (hdue : s.generationsSinceLastMutation < s.mutationInterval)
    (hc : s.Coherent) (hb : s.grid.Binary) :
    ∃ s2, s.Update rs = some (s2, rs) ∧
      s2.grid.rows = s.grid.rows ∧ s2.grid.columns = s.grid.columns ∧
      (∀ row column : Int, s.grid.InBounds row column →
        s2.grid.GetValue row column = some (s.grid.nextCell s.currentRules row column)) ∧
      (∀ t : Grid, t.WellFormed → t.rows = s.grid.rows → t.columns = s.grid.columns →
        ({ s with tempGrid := t } : Simulation).Update rs = some (s2, rs)) ∧
      (∀ order : List (Int × Int), (∀ p ∈ order, s.grid.InBounds p.1 p.2) →
        (∀ row column : Int, s.grid.InBounds row column → (row, column) ∈ order) →
        s.updateCells order = s.updateGrid) := by
  obtain ⟨t1, h1, hw1, hr1, hc1, hget1⟩ := Update_not_due s rs hrun hdue hc
  refine ⟨_, h1, hr1, hc1, ?_, ?_, fun order hin hall => updateCells_covering s hc order hin hall⟩
  · intro row column hrc
    rw [← stepCell_eq_nextCell hc.1 hb hrc]
    exact hget1 row column hrc
  · intro t ht htr htc
    obtain ⟨t2, h2, hw2, hr2, hc2, hget2⟩ :=
      Update_not_due { s with tempGrid := t } rs hrun hdue ⟨hc.1, ht, htr, htc⟩
    have heq : t2 = t1 := by
      apply grid_ext hw2 hw1 (hr2.trans hr1.symm) (hc2.trans hc1.symm)
      intro r c hrc
      have hrc2 : s.grid.InBounds r c := by
        unfold Grid.InBounds at hrc ⊢
        rw [hr2, hc2] at hrc; exact hrc
      rw [hget1 r c hrc2]
      exact hget2 r c hrc2
    rw [h2, heq]

theorem Update_next_generation_witness :
    sampleState.run = true ∧
      sampleState.generationsSinceLastMutation < sampleState.mutationInterval ∧
      sampleState.Coherent ∧ sampleState.grid.Binary ∧
      ∃ s2, sampleState.Update lowSource = some (s2, lowSource) ∧
        s2.grid.GetValue 0 0 = some (sampleState.grid.nextCell sampleState.currentRules 0 0) :=
  ⟨by decide, by decide, by decide, by decide,
    (Update_next_generation sampleState lowSource (by decide) (by decide) (by decide)
      (by decide)).imp (fun _ h => ⟨h.1, h.2.2.2.1 0 0 (by decide)⟩)⟩

/-- C5. `Update` is a no-op while paused: with `run = false` the call returns the
state as it was (grid, scratch grid, rules, history, both counters, interval and
flag) and draws nothing, the mutation being due or not. -/
theorem Update_paused_noop (s : Simulation) (rs : RandomSource) (hrun : s.run = false) :
    s.Update rs = some (s, rs) := by
  unfold Simulation.Update Simulation.IsRunning
  rw [hrun]
  rfl

theorem Update_paused_noop_witness :
    (sampleState.Stop.SetMutationInterval 10).run = false ∧
      (sampleState.Stop.SetMutationInterval 10).mutationInterval ≤
        (sampleState.Stop.SetMutationInterval 10).generationsSinceLastMutation ∧
      (sampleState.Stop.SetMutationInterval 10).Update lowSource
        = some (sampleState.Stop.SetMutationInterval 10, lowSource) :=
  ⟨rfl, by decide, Update_paused_noop _ lowSource rfl⟩

/-- C10. Edit gating: while `run = true`, `ToggleCell(row, column)`, `ClearGrid()`
and `CreateRandomState()` each return the state unchanged (grid, counters, rule
set and history), and `CreateRandomState` draws nothing. -/
theorem edits_gated_while_running (s : Simulation) (rs : RandomSource) (row column : Int)
    (hrun : s.run = true) :
    s.ToggleCell row column = some s ∧ s.ClearGrid = s ∧ s.CreateRandomState rs = (s, rs) := by
  unfold Simulation.ToggleCell Simulation.ClearGrid Simulation.CreateRandomState
    Simulation.IsRunning
  rw [hrun]
  exact ⟨rfl, rfl, rfl⟩

theorem edits_gated_while_running_witness :
    sampleState.run = true ∧ sampleState.ToggleCell 1 1 = some sampleState ∧
      sampleState.ClearGrid = sampleState ∧
      sampleState.CreateRandomState lowSource = (sampleState, lowSource) :=
  ⟨rfl, edits_gated_while_running sampleState lowSource 1 1 rfl⟩

/-! ## Consecutive updates -/

theorem UpdateN_succ_last : ∀ (n : Nat) (s : Simulation) (rs : RandomSource),
    Simulation.UpdateN (n + 1) s rs =
      (Simulation.UpdateN n s rs).bind (fun r => r.1.Update r.2)
  | 0, s, rs => by
    simp only [Simulation.UpdateN, Option.some_bind]
    cases s.Update rs <;> rfl
  | n + 1, s, rs => by
    rw [Simulation.UpdateN]
    conv_rhs => rw [Simulation.UpdateN]
    cases h : s.Update rs with
    | none => rfl
    | some r =>
      simp only [Option.some_bind]
      exact UpdateN_succ_last n r.1 r.2

theorem UpdateN_before_due : ∀ (n : Nat) (s : Simulation) (rs : RandomSource),
    s.run = true → s.Coherent →
    s.generationsSinceLastMutation + (n : Int) ≤ s.mutationInterval →
    ∃ s2, Simulation.UpdateN n s rs = some (s2, rs) ∧ s2.run = true ∧ s2.Coherent ∧
      s2.ruleHistory = s.ruleHistory ∧ s2.currentRules = s.currentRules ∧
      s2.mutationInterval = s.mutationInterval ∧
      s2.generationsSinceLastMutation = s.generationsSinceLastMutation + (n : Int) ∧
      s2.generationCount = s.generationCount + (n : Int)
  | 0, s, rs, hrun, hc, _ => ⟨s, rfl, hrun, hc, rfl, rfl, rfl, by simp, by simp⟩
  | n + 1, s, rs, hrun, hc, hle => by
    obtain ⟨t, hup, hw, hr, hcol, _⟩ := Update_not_due s rs hrun (by omega) hc
    obtain ⟨s2, hn, hrun2, hc2, hh, hcr, hmi, hg, hgc⟩ := UpdateN_before_due n
      { s with
          grid := t
          tempGrid := t
          generationCount := s.generationCount + 1
          generationsSinceLastMutation := s.generationsSinceLastMutation + 1 } rs hrun
      ⟨hw, hw, rfl, rfl⟩ (by simp only []; omega)
    refine ⟨s2, ?_, hrun2, hc2, hh, hcr, hmi, ?_, ?_⟩
    · rw [Simulation.UpdateN, hup]
      exact hn
    · rw [hg]; simp only []; omega
    · rw [hgc]; simp only []; omega

/-- C3, amended to the cadence of the code.  From a running coherent state with
`mutationInterval = 50` and `generationsSinceLastMutation = 0`, each of the first
50 consecutive `Update` calls returns with the generator, the rule set and the
history untouched, and the 51st call performs exactly one mutation: after 51
calls the history is the old one with the old rule set appended (one entry
more), the rule set is the mutated one and the counter since the last mutation
is 1. -/
theorem mutation_cadence (s : Simulation) (rs : RandomSource) (hrun : s.run = true)
    (hc : s.Coherent) (hi : s.mutationInterval = 50)
    (hg : s.generationsSinceLastMutation = 0) :
    (∀ n : Nat, n ≤ 50 → ∃ s2, Simulation.UpdateN n s rs = some (s2, rs) ∧
        s2.ruleHistory = s.ruleHistory ∧ s2.currentRules = s.currentRules ∧
        s2.generationCount = s.generationCount + (n : Int)) ∧
      ∃ s3 rs3, Simulation.UpdateN 51 s rs = some (s3, rs3) ∧
        s3.ruleHistory = s.ruleHistory ++ [s.currentRules] ∧
        s3.ruleHistory.length = s.ruleHistory.length + 1 ∧
        s3.currentRules = (mutateLifeRules s.currentRules rs).1 ∧
        s3.generationCount = s.generationCount + 51 ∧
        s3.generationsSinceLastMutation = 1 := by
  constructor
  · intro n hn
    obtain ⟨s2, h, _, _, hh, hcr, _, _, hgc⟩ := UpdateN_before_due n s rs hrun hc (by omega)
    exact ⟨s2, h, hh, hcr, hgc⟩
  · obtain ⟨s2, h, hrun2, hc2, hh, hcr, hmi, hg2, hgc⟩ :=
      UpdateN_before_due 50 s rs hrun hc (by omega)
    obtain ⟨t, hup, _⟩ := Update_running s2 rs hrun2 hc2
    rw [mutateIfDue_due rs (by rw [hmi, hg2, hi, hg]; decide)] at hup
    have h51 := UpdateN_succ_last 50 s rs
    rw [h, Option.some_bind, hup] at h51
    refine ⟨_, _, h51, ?_, ?_, ?_, ?_, ?_⟩
    · show s2.ruleHistory ++ [s2.currentRules] = _
      rw [hh, hcr]
    · show (s2.ruleHistory ++ [s2.currentRules]).length = _
      rw [hh]; simp
    · show (mutateLifeRules s2.currentRules rs).1 = _
      rw [hcr]
    · show s2.generationCount + 1 = _
      rw [hgc]; omega
    · rfl

theorem mutation_cadence_witness :
    (Simulation.new 750 750 25).Start.run = true ∧ (Simulation.new 750 750 25).Start.Coherent ∧
      (Simulation.new 750 750 25).Start.mutationInterval = 50 ∧
      (Simulation.new 750 750 25).Start.generationsSinceLastMutation = 0 ∧
      (∃ s2, Simulation.UpdateN 50 (Simulation.new 750 750 25).Start lowSource
          = some (s2, lowSource) ∧ s2.ruleHistory = []) ∧
      ∃ s3 rs3, Simulation.UpdateN 51 (Simulation.new 750 750 25).Start lowSource
          = some (s3, rs3) ∧ s3.ruleHistory = [LifeRules.new] :=
  ⟨rfl, by decide, rfl, rfl,
    ((mutation_cadence (Simulation.new 750 750 25).Start lowSource rfl (by decide) rfl rfl).1
      50 (le_refl _)).imp (fun _ h => ⟨h.1, h.2.1⟩),
    (mutation_cadence (Simulation.new 750 750 25).Start lowSource rfl (by decide) rfl rfl).2.imp
      (fun _ h => h.imp (fun _ h2 => ⟨h2.1, h2.2.1⟩))⟩

set_option maxRecDepth 1000000 in
/-- C3, as stated, fails on the code: started from the constructor state of a
3 x 3 grid (interval 50, counter 0), 50 consecutive `Update` calls leave the rule
history at its initial length, so it has not grown by one entry. -/
theorem mutation_cadence_counterexample :
    (Simulation.new 3 3 1).Start.run = true ∧
      (Simulation.new 3 3 1).Start.mutationInterval = 50 ∧
      (Simulation.new 3 3 1).Start.generationsSinceLastMutation = 0 ∧
      (Simulation.UpdateN 50 (Simulation.new 3 3 1).Start lowSource).map
        (fun r => r.1.ruleHistory.length) = some (Simulation.new 3 3 1).Start.ruleHistory.length ∧
      ¬ ((Simulation.UpdateN 50 (Simulation.new 3 3 1).Start lowSource).map
        (fun r => r.1.ruleHistory.length)
          = some ((Simulation.new 3 3 1).Start.ruleHistory.length + 1)) := by
  decide

/-! ## Wrap-around at the corners -/

theorem neighbourSum_eq_sum_cells (g : Grid) (row column : Int) :
    g.neighbourSum row column
      = ((g.neighbourCells row column).map (fun p => g.cell p.1 p.2)).sum := by
  unfold Grid.neighbourSum Grid.neighbourCells
  rw [List.map_map]
  rfl

theorem mem_neighbourCells_inBounds {g : Grid} {row column : Int}
    (h : g.InBounds row column) {p : Int × Int} (hp : p ∈ g.neighbourCells row column) :
    g.InBounds p.1 p.2 := by
  obtain ⟨h1, h2, h3, h4⟩ := h
  obtain ⟨offset, ho, rfl⟩ := List.mem_map.mp hp
  obtain ⟨hd1, hd2⟩ := offset_bounds ho
  obtain ⟨a1, a2⟩ := wrap_bounds h1 h2 hd1
  obtain ⟨b1, b2⟩ := wrap_bounds h3 h4 hd2
  exact ⟨a1, a2, b1, b2⟩

theorem count_ge_one_of_live_neighbour {s : Simulation} (hw : s.grid.WellFormed)
    (hb : s.grid.Binary) {row column : Int} (h : s.grid.InBounds row column)
    {p : Int × Int} (hp : p ∈ s.grid.neighbourCells row column)
    (hlive : s.grid.GetValue p.1 p.2 = some 1) :
    ∃ n, s.CountLiveNeighbors row column = some n ∧ 1 ≤ n := by
  refine ⟨_, CountLiveNeighbors_eq hw h, ?_⟩
  rw [neighbourSum_eq_sum_cells, ← cell_of_getValue hlive]
  apply List.single_le_sum
  · intro x hx
    obtain ⟨q, hq, rfl⟩ := List.mem_map.mp hx
    have hget := getValue_eq_cell hw (mem_neighbourCells_inBounds h hq)
    rcases getValue_binary hb hget with h0 | h1 <;> omega
  · exact List.mem_map.mpr ⟨p, hp, rfl⟩

theorem tmod_wrap_up {n : Int} (hn : 1 ≤ n) : Int.tmod (n - 1 + 1 + n) n = 0 := by
  rw [Int.tmod_eq_emod (by omega) (by omega)]
  have : n - 1 + 1 + n = 0 + n * 2 := by ring
  rw [this, Int.add_mul_emod_self_left]
  rfl

theorem tmod_wrap_down {n : Int} (hn : 1 ≤ n) : Int.tmod (0 + -1 + n) n = n - 1 := by
  rw [Int.tmod_eq_emod (by omega) (by omega)]
  have : 0 + -1 + n = n - 1 := by ring
  rw [this]
  exact Int.emod_eq_of_lt (by omega) (by omega)

theorem tmod_wrap_stay {i n : Int} (h0 : 0 ≤ i) (hn : i < n) : Int.tmod (i + 0 + n) n = i := by
  rw [wrap_eq h0 hn (by decide), Int.add_zero]
  exact Int.emod_eq_of_lt h0 hn

theorem corner_neighbourCells (g : Grid) (hr : 1 ≤ g.rows) (hc : 1 ≤ g.columns) :
    ((0 : Int), (0 : Int)) ∈ g.neighbourCells (g.rows - 1) (g.columns - 1) ∧
      ((0 : Int), (0 : Int)) ∈ g.neighbourCells (g.rows - 1) 0 ∧
      ((0 : Int), (0 : Int)) ∈ g.neighbourCells 0 (g.columns - 1) ∧
      (g.rows - 1, g.columns - 1) ∈ g.neighbourCells 0 0 ∧
      (g.rows - 1, (0 : Int)) ∈ g.neighbourCells 0 0 ∧
      ((0 : Int), g.columns - 1) ∈ g.neighbourCells 0 0 := by
  have hr0 : (0 : Int) < g.rows := by omega
  have hc0 : (0 : Int) < g.columns := by omega
  refine ⟨?_, ?_, ?_, ?_, ?_, ?_⟩
  · refine List.mem_map.mpr ⟨(1, 1), by decide, ?_⟩
    simp only [tmod_wrap_up hr, tmod_wrap_up hc]
  · refine List.mem_map.mpr ⟨(1, 0), by decide, ?_⟩
    simp only [tmod_wrap_up hr, tmod_wrap_stay (le_refl 0) hc0]
  · refine List.mem_map.mpr ⟨(0, 1), by decide, ?_⟩
    simp only [tmod_wrap_up hc, tmod_wrap_stay (le_refl 0) hr0]
  · refine List.mem_map.mpr ⟨(-1, -1), by decide, ?_⟩
    simp only [tmod_wrap_down hr, tmod_wrap_down hc]
  · refine List.mem_map.mpr ⟨(-1, 0), by decide, ?_⟩
    simp only [tmod_wrap_down hr, tmod_wrap_stay (le_refl 0) hc0]
  · refine List.mem_map.mpr ⟨(0, -1), by decide, ?_⟩
    simp only [tmod_wrap_down hc, tmod_wrap_stay (le_refl 0) hr0]

/-- C6. Toroidal corner wrap-around.  On a rectangular 0/1 grid with at least one
row and one column, (0,0) is among the positions read by `CountLiveNeighbors`
at (R-1,C-1), at (R-1,0) and at (0,C-1), and each of these three is among the
positions read at (0,0); hence a live cell at (0,0) makes the count at each of
the three positions at least 1, and a live cell at any of the three makes the
count at (0,0) at least 1. -/
theorem corner_wraparound (s : Simulation) (hw : s.grid.WellFormed) (hb : s.grid.Binary)
    (hr : 1 ≤ s.grid.rows) (hc : 1 ≤ s.grid.columns) :
    (((0 : Int), (0 : Int)) ∈ s.grid.neighbourCells (s.grid.rows - 1) (s.grid.columns - 1) ∧
      ((0 : Int), (0 : Int)) ∈ s.grid.neighbourCells (s.grid.rows - 1) 0 ∧
      ((0 : Int), (0 : Int)) ∈ s.grid.neighbourCells 0 (s.grid.columns - 1) ∧
      (s.grid.rows - 1, s.grid.columns - 1) ∈ s.grid.neighbourCells 0 0 ∧
      (s.grid.rows - 1, (0 : Int)) ∈ s.grid.neighbourCells 0 0 ∧
      ((0 : Int), s.grid.columns - 1) ∈ s.grid.neighbourCells 0 0) ∧
    (s.grid.GetValue 0 0 = some 1 →
      (∃ n, s.CountLiveNeighbors (s.grid.rows - 1) (s.grid.columns - 1) = some n ∧ 1 ≤ n) ∧
      (∃ n, s.CountLiveNeighbors (s.grid.rows - 1) 0 = some n ∧ 1 ≤ n) ∧
      (∃ n, s.CountLiveNeighbors 0 (s.grid.columns - 1) = some n ∧ 1 ≤ n)) ∧
    ((s.grid.GetValue (s.grid.rows - 1) (s.grid.columns - 1) = some 1 ∨
        s.grid.GetValue (s.grid.rows - 1) 0 = some 1 ∨
        s.grid.GetValue 0 (s.grid.columns - 1) = some 1) →
      ∃ n, s.CountLiveNeighbors 0 0 = some n ∧ 1 ≤ n) := by
  obtain ⟨m1, m2, m3, m4, m5, m6⟩ := corner_neighbourCells s.grid hr hc
  have b00 : s.grid.InBounds 0 0 := ⟨le_refl _, by omega, le_refl _, by omega⟩
  refine ⟨⟨m1, m2, m3, m4, m5, m6⟩, fun hlive => ⟨?_, ?_, ?_⟩, fun hlive => ?_⟩
  · exact count_ge_one_of_live_neighbour hw hb ⟨by omega, by omega, by omega, by omega⟩ m1 hlive
  · exact count_ge_one_of_live_neighbour hw hb ⟨by omega, by omega, by omega, by omega⟩ m2 hlive
  · exact count_ge_one_of_live_neighbour hw hb ⟨by omega, by omega, by omega, by omega⟩ m3 hlive
  · rcases hlive with h | h | h
    · exact count_ge_one_of_live_neighbour hw hb b00 m4 h
    · exact count_ge_one_of_live_neighbour hw hb b00 m5 h
    · exact count_ge_one_of_live_neighbour hw hb b00 m6 h

theorem corner_wraparound_witness :
    sampleState.grid.WellFormed ∧ sampleState.grid.Binary ∧ 1 ≤ sampleState.grid.rows ∧
      1 ≤ sampleState.grid.columns ∧ sampleState.grid.GetValue 0 0 = some 1 ∧
      (∃ n, sampleState.CountLiveNeighbors 2 3 = some n ∧ 1 ≤ n) ∧
      (∃ n, sampleState.CountLiveNeighbors 2 0 = some n ∧ 1 ≤ n) ∧
      (∃ n, sampleState.CountLiveNeighbors 0 3 = some n ∧ 1 ≤ n) :=
  ⟨by decide, by decide, by decide, by decide, by decide,
    (corner_wraparound sampleState (by decide) (by decide) (by decide) (by decide)).2.1
      (by decide)⟩

/-! ## Patterns that are products of a row marking and a column marking -/

theorem tmod_up {i n : Int} (h0 : 0 ≤ i) (hn : i < n) :
    Int.tmod (i + -1 + n) n = wrapUp i n := by
  rw [Int.tmod_eq_emod (by omega) (by omega)]
  unfold wrapUp
  split_ifs with h
  · subst h
    have : (0 : Int) + -1 + n = n - 1 := by ring
    rw [this]
    exact Int.emod_eq_of_lt (by omega) (by omega)
  · have : i + -1 + n = (i - 1) + n := by ring
    rw [this, Int.add_emod_self]
    exact Int.emod_eq_of_lt (by omega) (by omega)

theorem tmod_down {i n : Int} (h0 : 0 ≤ i) (hn : i < n) :
    Int.tmod (i + 1 + n) n = wrapDown i n := by
  rw [Int.tmod_eq_emod (by omega) (by omega), Int.add_emod_self]
  unfold wrapDown
  split_ifs with h
  · rw [h]; exact Int.emod_self
  · exact Int.emod_eq_of_lt (by omega) (by omega)

theorem emod_up {i n : Int} (h0 : 0 ≤ i) (hn : i < n) : (i - 1) % n = wrapUp i n := by
  rw [← tmod_up h0 hn, Int.tmod_eq_emod (by omega) (by omega)]
  have : i + -1 + n = (i - 1) + n := by ring
  rw [this, Int.add_emod_self]

theorem emod_down {i n : Int} (h0 : 0 ≤ i) (hn : i < n) : (i + 1) % n = wrapDown i n := by
  rw [← tmod_down h0 hn, Int.tmod_eq_emod (by omega) (by omega), Int.add_emod_self]

theorem wrapUp_bounds {i n : Int} (h0 : 0 ≤ i) (hn : i < n) :
    0 ≤ wrapUp i n ∧ wrapUp i n < n := by
  unfold wrapUp; split_ifs <;> omega

theorem wrapDown_bounds {i n : Int} (h0 : 0 ≤ i) (hn : i < n) :
    0 ≤ wrapDown i n ∧ wrapDown i n < n := by
  unfold wrapDown; split_ifs <;> omega

theorem neighbourSum_product {g : Grid} (rowMark colMark : Int → Int)
    (hp : ∀ r c : Int, g.InBounds r c → g.GetValue r c = some (rowMark r * colMark c))
    {row column : Int} (h : g.InBounds row column) :
    g.neighbourSum row column
      = ringSum rowMark row g.rows * ringSum colMark column g.columns
        - rowMark row * colMark column := by
  obtain ⟨h1, h2, h3, h4⟩ := h
  obtain ⟨u1, u2⟩ := wrapUp_bounds h1 h2
  obtain ⟨d1, d2⟩ := wrapDown_bounds h1 h2
  obtain ⟨l1, l2⟩ := wrapUp_bounds h3 h4
  obtain ⟨r1, r2⟩ := wrapDown_bounds h3 h4
  unfold Grid.neighbourSum neighborOffsets ringSum
  simp only [List.map_cons, List.map_nil, List.sum_cons, List.sum_nil]
  rw [tmod_up h1 h2, tmod_down h1 h2, tmod_up h3 h4, tmod_down h3 h4,
    tmod_wrap_stay h1 h2, tmod_wrap_stay h3 h4]
  rw [cell_of_getValue (hp _ _ ⟨u1, u2, h3, h4⟩), cell_of_getValue (hp _ _ ⟨d1, d2, h3, h4⟩),
    cell_of_getValue (hp _ _ ⟨h1, h2, l1, l2⟩), cell_of_getValue (hp _ _ ⟨h1, h2, r1, r2⟩),
    cell_of_getValue (hp _ _ ⟨u1, u2, l1, l2⟩), cell_of_getValue (hp _ _ ⟨u1, u2, r1, r2⟩),
    cell_of_getValue (hp _ _ ⟨d1, d2, l1, l2⟩), cell_of_getValue (hp _ _ ⟨d1, d2, r1, r2⟩)]
  ring

theorem stepCell_classic (s : Simulation) (hrules : s.currentRules = LifeRules.new)
    (row column : Int) :
    s.stepCell row column =
      if (s.grid.cell row column = 1 ∧
            (s.grid.neighbourSum row column = 2 ∨ s.grid.neighbourSum row column = 3)) ∨
          (s.grid.cell row column ≠ 1 ∧ s.grid.neighbourSum row column = 3)
      then 1 else 0 := by
  unfold Simulation.stepCell Simulation.ShouldCellLive
  rw [hrules]
  by_cases h : s.grid.cell row column = 1 <;> simp [h, LifeRules.new]

/-! ## The 2 x 2 block -/

theorem pairMark_ringSum {i0 n i : Int} (hn : 4 ≤ n) (h0 : 0 ≤ i0) (h1 : i0 < n)
    (hi0 : 0 ≤ i) (hi1 : i < n) :
    (pairMark i0 n i = 0 ∨ pairMark i0 n i = 1) ∧
      (pairMark i0 n i = 1 → ringSum (pairMark i0 n) i n = 2) ∧
      (pairMark i0 n i = 0 →
        ringSum (pairMark i0 n) i n = 0 ∨ ringSum (pairMark i0 n) i n = 1) := by
  unfold ringSum pairMark wrapUp wrapDown
  split_ifs <;> omega

theorem classic_block (a b ra rb : Int) (ha : a = 0 ∨ a = 1) (hb : b = 0 ∨ b = 1)
    (ha1 : a = 1 → ra = 2) (ha0 : a = 0 → ra = 0 ∨ ra = 1)
    (hb1 : b = 1 → rb = 2) (hb0 : b = 0 → rb = 0 ∨ rb = 1) :
    (if (a * b = 1 ∧ (ra * rb - a * b = 2 ∨ ra * rb - a * b = 3)) ∨
        (a * b ≠ 1 ∧ ra * rb - a * b = 3) then (1 : Int) else 0) = a * b := by
  rcases ha with rfl | rfl <;> rcases hb with rfl | rfl
  · rcases ha0 rfl with h | h <;> rcases hb0 rfl with h2 | h2 <;> rw [h, h2] <;> decide
  · rcases ha0 rfl with h | h <;> rw [h, hb1 rfl] <;> decide
  · rcases hb0 rfl with h | h <;> rw [h, ha1 rfl] <;> decide
  · rw [ha1 rfl, hb1 rfl]; decide

theorem ite_and_mul (p q : Prop) [Decidable p] [Decidable q] :
    (if p ∧ q then (1 : Int) else 0) = (if p then 1 else 0) * (if q then 1 else 0) := by
  by_cases hp : p <;> by_cases hq : q <;> simp [hp, hq]

/-- C7. Still life.  On a grid with at least 4 rows and 4 columns whose live cells
are exactly the 2 x 2 block with upper-left corner (r0,c0), rows and columns
taken modulo the grid size, under the classic rules, running and with no
mutation due, one `Update` returns a state whose grid is the grid before. -/
theorem block_still_life (s : Simulation) (rs : RandomSource) (hrun : s.run = true)
    (hdue : s.generationsSinceLastMutation < s.mutationInterval) (hc : s.Coherent)
    (hrules : s.currentRules = LifeRules.new)
    (hrows : 4 ≤ s.grid.rows) (hcols : 4 ≤ s.grid.columns) (r0 c0 : Int)
    (hpos : s.grid.InBounds r0 c0)
    (hblock : ∀ row column : Int, s.grid.InBounds row column →
      s.grid.GetValue row column = some
        (if (row = r0 ∨ row = (r0 + 1) % s.grid.rows) ∧
            (column = c0 ∨ column = (c0 + 1) % s.grid.columns) then 1 else 0)) :
    ∃ s2, s.Update rs = some (s2, rs) ∧ s2.grid = s.grid := by
  obtain ⟨p1, p2, p3, p4⟩ := hpos
  have hprod : ∀ r c : Int, s.grid.InBounds r c → s.grid.GetValue r c
      = some (pairMark r0 s.grid.rows r * pairMark c0 s.grid.columns c) := by
    intro r c hrc
    rw [hblock r c hrc, emod_down p1 p2, emod_down p3 p4, ite_and_mul]
    rfl
  obtain ⟨t, hup, hw, htr, htc, hget⟩ := Update_not_due s rs hrun hdue hc
  refine ⟨_, hup, ?_⟩
  show t = s.grid
  apply grid_ext hw hc.1 htr htc
  intro r c hrc
  have hrc2 : s.grid.InBounds r c := by
    unfold Grid.InBounds at hrc ⊢
    rw [htr, htc] at hrc; exact hrc
  rw [hget r c hrc2, hprod r c hrc2, stepCell_classic s hrules,
    neighbourSum_product _ _ hprod hrc2, cell_of_getValue (hprod r c hrc2)]
  obtain ⟨a1, a2, a3⟩ := pairMark_ringSum hrows p1 p2 hrc2.1 hrc2.2.1
  obtain ⟨b1, b2, b3⟩ := pairMark_ringSum hcols p3 p4 hrc2.2.2.1 hrc2.2.2.2
  rw [classic_block _ _ _ _ a1 b1 a2 a3 b2 b3]

theorem block_still_life_witness :
    blockState.run = true ∧
      blockState.generationsSinceLastMutation < blockState.mutationInterval ∧
      blockState.Coherent ∧ blockState.currentRules = LifeRules.new ∧
      4 ≤ blockState.grid.rows ∧ 4 ≤ blockState.grid.columns ∧ blockState.grid.InBounds 3 3 ∧
      ∃ s2, blockState.Update lowSource = some (s2, lowSource) ∧ s2.grid = blockState.grid :=
  ⟨by decide, by decide, by decide, by decide, by decide, by decide, by decide,
    block_still_life blockState lowSource (by decide) (by decide) (by decide) (by decide)
      (by decide) (by decide) 3 3 (by decide) (by
        rintro row column ⟨h1, h2, h3, h4⟩
        have h2 : row < 4 := h2
        have h4 : column < 4 := h4
        interval_cases row <;> interval_cases column <;> rfl)⟩

/-! ## The blinker -/

theorem singleMark_ringSum {i0 n i : Int} (hn : 5 ≤ n) (h0 : 0 ≤ i0) (h1 : i0 < n)
    (hi0 : 0 ≤ i) (hi1 : i < n) :
    (singleMark i0 i = 0 ∨ singleMark i0 i = 1) ∧
      ringSum (singleMark i0) i n = tripleMark i0 n i ∧
      (singleMark i0 i = 1 → tripleMark i0 n i = 1) := by
  unfold ringSum singleMark tripleMark wrapUp wrapDown
  split_ifs <;> omega

theorem tripleMark_ringSum {i0 n i : Int} (hn : 5 ≤ n) (h0 : 0 ≤ i0) (h1 : i0 < n)
    (hi0 : 0 ≤ i) (hi1 : i < n) :
    (tripleMark i0 n i = 0 ∨ tripleMark i0 n i = 1) ∧
      0 ≤ ringSum (tripleMark i0 n) i n ∧ ringSum (tripleMark i0 n) i n ≤ 3 ∧
      (tripleMark i0 n i = 1 → 2 ≤ ringSum (tripleMark i0 n) i n) ∧
      (ringSum (tripleMark i0 n) i n = 3 ↔ singleMark i0 i = 1) := by
  unfold ringSum tripleMark singleMark wrapUp wrapDown
  split_ifs <;> omega

theorem classic_cross (a b ra rb sb : Int) (ha : a = 0 ∨ a = 1) (hb : b = 0 ∨ b = 1)
    (hsb : sb = 0 ∨ sb = 1)
    (hra : ra = 0 ∨ ra = 1) (ha1 : a = 1 → ra = 1) (hrb0 : 0 ≤ rb) (hrb3 : rb ≤ 3)
    (hb1 : b = 1 → 2 ≤ rb) (hrb : rb = 3 ↔ sb = 1) :
    (if (a * b = 1 ∧ (ra * rb - a * b = 2 ∨ ra * rb - a * b = 3)) ∨
        (a * b ≠ 1 ∧ ra * rb - a * b = 3) then (1 : Int) else 0) = ra * sb := by
  have hrbv : rb = 0 ∨ rb = 1 ∨ rb = 2 ∨ rb = 3 := by omega
  rcases ha with rfl | rfl <;> rcases hb with rfl | rfl <;> rcases hra with rfl | rfl <;>
    rcases hsb with rfl | rfl <;> rcases hrbv with rfl | rfl | rfl | rfl <;>
    omega

theorem classic_cross_swap (a b ra rb sb : Int) (ha : a = 0 ∨ a = 1) (hb : b = 0 ∨ b = 1)
    (hsb : sb = 0 ∨ sb = 1)
    (hra : ra = 0 ∨ ra = 1) (ha1 : a = 1 → ra = 1) (hrb0 : 0 ≤ rb) (hrb3 : rb ≤ 3)
    (hb1 : b = 1 → 2 ≤ rb) (hrb : rb = 3 ↔ sb = 1) :
    (if (b * a = 1 ∧ (rb * ra - b * a = 2 ∨ rb * ra - b * a = 3)) ∨
        (b * a ≠ 1 ∧ rb * ra - b * a = 3) then (1 : Int) else 0) = sb * ra := by
  rw [mul_comm b a, mul_comm rb ra, mul_comm sb ra]
  exact classic_cross a b ra rb sb ha hb hsb hra ha1 hrb0 hrb3 hb1 hrb

theorem tripleMark_binary (i0 n i : Int) : tripleMark i0 n i = 0 ∨ tripleMark i0 n i = 1 := by
  unfold tripleMark; split_ifs <;> simp

theorem singleMark_binary (i0 i : Int) : singleMark i0 i = 0 ∨ singleMark i0 i = 1 := by
  unfold singleMark; split_ifs <;> simp

theorem Update_not_due_fields (s : Simulation) (rs : RandomSource) (hrun : s.run = true)
    (hdue : s.generationsSinceLastMutation < s.mutationInterval) (hc : s.Coherent) :
    ∃ s2, s.Update rs = some (s2, rs) ∧ s2.run = true ∧ s2.Coherent ∧
      s2.currentRules = s.currentRules ∧ s2.ruleHistory = s.ruleHistory ∧
      s2.mutationInterval = s.mutationInterval ∧
      s2.generationsSinceLastMutation = s.generationsSinceLastMutation + 1 ∧
      s2.generationCount = s.generationCount + 1 ∧
      s2.grid.rows = s.grid.rows ∧ s2.grid.columns = s.grid.columns ∧
      ∀ r c : Int, s.grid.InBounds r c → s2.grid.GetValue r c = some (s.stepCell r c) := by
  obtain ⟨t, hup, hw, htr, htc, hget⟩ := Update_not_due s rs hrun hdue hc
  exact ⟨_, hup, hrun, ⟨hw, hw, rfl, rfl⟩, rfl, rfl, rfl, rfl, rfl, htr, htc, hget⟩

/-- C8. Oscillator.  On a grid with at least 5 rows and 5 columns whose live cells
are exactly the horizontal blinker (r0,c0-1), (r0,c0), (r0,c0+1), indices modulo
the grid size, under the classic rules, running and with
`generationsSinceLastMutation + 1 < mutationInterval`, the live cells after one
`Update` are exactly the vertical blinker (r0-1,c0), (r0,c0), (r0+1,c0), and the
grid after two `Update` calls is the original grid. -/
theorem blinker_oscillates (s : Simulation) (rs : RandomSource) (hrun : s.run = true)
    (hdue : s.generationsSinceLastMutation + 1 < s.mutationInterval) (hc : s.Coherent)
    (hrules : s.currentRules = LifeRules.new)
    (hrows : 5 ≤ s.grid.rows) (hcols : 5 ≤ s.grid.columns) (r0 c0 : Int)
    (hpos : s.grid.InBounds r0 c0)
    (hblinker : ∀ row column : Int, s.grid.InBounds row column →
      s.grid.GetValue row column = some
        (if row = r0 ∧ (column = (c0 - 1) % s.grid.columns ∨ column = c0 ∨
            column = (c0 + 1) % s.grid.columns) then 1 else 0)) :
    ∃ s2 s3, s.Update rs = some (s2, rs) ∧
      s2.grid.rows = s.grid.rows ∧ s2.grid.columns = s.grid.columns ∧
      (∀ row column : Int, s.grid.InBounds row column →
        s2.grid.GetValue row column = some
          (if (row = (r0 - 1) % s.grid.rows ∨ row = r0 ∨ row = (r0 + 1) % s.grid.rows) ∧
              column = c0 then 1 else 0)) ∧
      s2.Update rs = some (s3, rs) ∧ s3.grid = s.grid ∧
      Simulation.UpdateN 2 s rs = some (s3, rs) := by
  obtain ⟨p1, p2, p3, p4⟩ := hpos
  -- the horizontal blinker is a product pattern
  have hprod : ∀ r c : Int, s.grid.InBounds r c → s.grid.GetValue r c
      = some (singleMark r0 r * tripleMark c0 s.grid.columns c) := by
    intro r c hrc
    rw [hblinker r c hrc, emod_down p3 p4, emod_up p3 p4, ite_and_mul]
    rfl
  -- first tick
  obtain ⟨s2, hup, hrun2, hcoh2, hrules2, _, hmi2, hgsl2, _, htr, htc, hget⟩ :=
    Update_not_due_fields s rs hrun (by omega) hc
  have hvert : ∀ r c : Int, s.grid.InBounds r c →
      s2.grid.GetValue r c = some (tripleMark r0 s.grid.rows r * singleMark c0 c) := by
    intro r c hrc
    rw [hget r c hrc, stepCell_classic s hrules, neighbourSum_product _ _ hprod hrc,
      cell_of_getValue (hprod r c hrc)]
    obtain ⟨a1, a2, a3⟩ := singleMark_ringSum hrows p1 p2 hrc.1 hrc.2.1
    obtain ⟨b1, b2, b3, b4, b5⟩ := tripleMark_ringSum hcols p3 p4 hrc.2.2.1 hrc.2.2.2
    rw [a2]
    exact congrArg some (classic_cross _ _ _ _ (singleMark c0 c) a1 b1 (singleMark_binary _ _)
      (tripleMark_binary _ _ _) a3 b2 b3 b4 b5)
  -- second tick
  obtain ⟨s3, hup3, _, _, _, _, _, _, _, htr3, htc3, hget3⟩ :=
    Update_not_due_fields s2 rs hrun2 (by omega) hcoh2
  have hinb : ∀ r c : Int, s2.grid.InBounds r c ↔ s.grid.InBounds r c := by
    intro r c
    unfold Grid.InBounds
    rw [htr, htc]
  have hprod2 : ∀ r c : Int, s2.grid.InBounds r c →
      s2.grid.GetValue r c = some (tripleMark r0 s.grid.rows r * singleMark c0 c) :=
    fun r c hrc => hvert r c ((hinb r c).mp hrc)
  have hback : s3.grid = s.grid := by
    apply grid_ext ?_ hc.1 (htr3.trans htr) (htc3.trans htc)
    · intro r c hrc
      have hrc1 : s2.grid.InBounds r c := by
        unfold Grid.InBounds at hrc ⊢
        rw [htr3, htc3] at hrc; exact hrc
      have hrc0 : s.grid.InBounds r c := (hinb r c).mp hrc1
      rw [hget3 r c hrc1, hprod r c hrc0, stepCell_classic s2 (hrules2.trans hrules),
        neighbourSum_product _ _ hprod2 hrc1, cell_of_getValue (hprod2 r c hrc1), htr, htc]
      obtain ⟨a1, a2, a3⟩ := singleMark_ringSum hcols p3 p4 hrc0.2.2.1 hrc0.2.2.2
      obtain ⟨b1, b2, b3, b4, b5⟩ := tripleMark_ringSum hrows p1 p2 hrc0.1 hrc0.2.1
      rw [a2]
      rw [classic_cross_swap _ _ _ _ (singleMark r0 r) a1 b1 (singleMark_binary _ _)
        (tripleMark_binary _ _ _) a3 b2 b3 b4 b5]
    · obtain ⟨s4, hup4, _, hcoh4, _⟩ := Update_not_due_fields s2 rs hrun2 (by omega) hcoh2
      rw [hup3] at hup4
      have : s3 = s4 := congrArg Prod.fst (Option.some.inj hup4)
      rw [this]
      exact hcoh4.1
  refine ⟨s2, s3, hup, htr, htc, ?_, hup3, hback, ?_⟩
  · intro r c hrc
    rw [hvert r c hrc, emod_down p1 p2, emod_up p1 p2, ite_and_mul]
    rfl
  · simp only [Simulation.UpdateN, hup, Option.some_bind, hup3]

theorem blinker_oscillates_witness :
    blinkerState.run = true ∧
      blinkerState.generationsSinceLastMutation + 1 < blinkerState.mutationInterval ∧
      blinkerState.Coherent ∧ blinkerState.currentRules = LifeRules.new ∧
      5 ≤ blinkerState.grid.rows ∧ 5 ≤ blinkerState.grid.columns ∧
      blinkerState.grid.InBounds 0 0 ∧
      ∃ s2 s3, blinkerState.Update lowSource = some (s2, lowSource) ∧
        s2.grid.GetValue 4 0 = some 1 ∧ s2.grid.GetValue 0 0 = some 1 ∧
        s2.grid.GetValue 1 0 = some 1 ∧ s2.grid.GetValue 0 1 = some 0 ∧
        s2.grid.GetValue 0 4 = some 0 ∧
        s2.Update lowSource = some (s3, lowSource) ∧ s3.grid = blinkerState.grid :=
  ⟨by decide, by decide, by decide, by decide, by decide, by decide, by decide,
    (blinker_oscillates blinkerState lowSource (by decide) (by decide) (by decide) (by decide)
      (by decide) (by decide) 0 0 (by decide) (by
        rintro row column ⟨h1, h2, h3, h4⟩
        have h2 : row < 5 := h2
        have h4 : column < 5 := h4
        interval_cases row <;> interval_cases column <;> rfl)).imp
      (fun _ h => h.imp (fun _ h2 => ⟨h2.1, h2.2.2.2.1 4 0 (by decide),
        h2.2.2.2.1 0 0 (by decide), h2.2.2.2.1 1 0 (by decide), h2.2.2.2.1 0 1 (by decide),
        h2.2.2.2.1 0 4 (by decide), h2.2.2.2.2.1, h2.2.2.2.2.2.1⟩))⟩

/-! ## Forced mutation and reset -/

/-- C11. A forced `MutateRules` call records history and touches nothing but the
rules: for every state, running or paused, and every generator, the history
afterwards is the old history with the pre-mutation rule set appended as its
last entry (one entry more), and the grid, the scratch grid, the running flag,
`generationCount`, `mutationInterval` and `generationsSinceLastMutation` are
unchanged; the forced call does not reset the countdown. -/
theorem MutateRules_records_history (s : Simulation) (rs : RandomSource) :
    (s.MutateRules rs).1.ruleHistory = s.ruleHistory ++ [s.currentRules] ∧
      (s.MutateRules rs).1.ruleHistory.length = s.ruleHistory.length + 1 ∧
      (s.MutateRules rs).1.ruleHistory.getLast? = some s.currentRules ∧
      (s.MutateRules rs).1.grid = s.grid ∧
      (s.MutateRules rs).1.tempGrid = s.tempGrid ∧
      (s.MutateRules rs).1.run = s.run ∧
      (s.MutateRules rs).1.generationCount = s.generationCount ∧
      (s.MutateRules rs).1.mutationInterval = s.mutationInterval ∧
      (s.MutateRules rs).1.generationsSinceLastMutation = s.generationsSinceLastMutation := by
  refine ⟨rfl, ?_, ?_, rfl, rfl, rfl, rfl, rfl, rfl⟩
  · simp [Simulation.MutateRules]
  · simp [Simulation.MutateRules]

/-- C12, as stated, fails on the code: on the sample state, whose counter since
the last mutation is 12, the counter is still 12 and not 0 when a forced
`MutateRules` call returns. -/
theorem forced_mutation_keeps_counter_counterexample :
    sampleState.generationsSinceLastMutation = 12 ∧
      (sampleState.MutateRules lowSource).1.generationsSinceLastMutation = 12 ∧
      ¬ ((sampleState.MutateRules lowSource).1.generationsSinceLastMutation = 0) := by
  decide

/-- C12, amended to the code.  A forced `MutateRules` call leaves
`generationsSinceLastMutation` at the value it had before the call.  Only the
automatic path resets it: when the mutation is due the head of `Update` sets the
counter to 0, and a running `Update` on a coherent state then returns with the
counter at 1. -/
theorem mutation_counter_reset (s : Simulation) (rs : RandomSource) :
    (s.MutateRules rs).1.generationsSinceLastMutation = s.generationsSinceLastMutation ∧
      (s.mutationInterval ≤ s.generationsSinceLastMutation →
        (s.mutateIfDue rs).1.generationsSinceLastMutation = 0 ∧
        (s.run = true → s.Coherent → ∃ s2, s.Update rs = some (s2, (s.MutateRules rs).2) ∧
          s2.generationsSinceLastMutation = 1)) := by
  refine ⟨rfl, fun hdue => ⟨?_, fun hrun hc => ?_⟩⟩
  · rw [mutateIfDue_due rs hdue]
  · obtain ⟨t, hup, _⟩ := Update_running s rs hrun hc
    rw [mutateIfDue_due rs hdue] at hup
    exact ⟨_, hup, rfl⟩

theorem mutation_counter_reset_witness :
    (sampleState.SetMutationInterval 10).mutationInterval
        ≤ (sampleState.SetMutationInterval 10).generationsSinceLastMutation ∧
      (sampleState.SetMutationInterval 10).run = true ∧
      (sampleState.SetMutationInterval 10).Coherent ∧
      ((sampleState.SetMutationInterval 10).MutateRules lowSource).1.generationsSinceLastMutation
        = 12 ∧
      ((sampleState.SetMutationInterval 10).mutateIfDue lowSource).1.generationsSinceLastMutation
        = 0 ∧
      ∃ s2, (sampleState.SetMutationInterval 10).Update lowSource
          = some (s2, ((sampleState.SetMutationInterval 10).MutateRules lowSource).2) ∧
        s2.generationsSinceLastMutation = 1 :=
  ⟨by decide, by decide, by decide,
    (mutation_counter_reset (sampleState.SetMutationInterval 10) lowSource).1,
    ((mutation_counter_reset (sampleState.SetMutationInterval 10) lowSource).2 (by decide)).1,
    ((mutation_counter_reset (sampleState.SetMutationInterval 10) lowSource).2 (by decide)).2
      (by decide) (by decide)⟩

/-- C13. `ResetRules`: afterwards the rule set is the classic one (survival [2,3],
birth [3]), the history is empty, `generationCount` and
`generationsSinceLastMutation` are 0, and the grid, the scratch grid, the running
flag and `mutationInterval` are unchanged. -/
theorem ResetRules_spec (s : Simulation) :
    s.ResetRules.currentRules = { survivalCounts := [2, 3], birthCounts := [3] } ∧
      s.ResetRules.ruleHistory = [] ∧
      s.ResetRules.generationCount = 0 ∧
      s.ResetRules.generationsSinceLastMutation = 0 ∧
      s.ResetRules.grid = s.grid ∧
      s.ResetRules.tempGrid = s.tempGrid ∧
      s.ResetRules.run = s.run ∧
      s.ResetRules.mutationInterval = s.mutationInterval :=
  ⟨rfl, rfl, rfl, rfl, rfl, rfl, rfl, rfl⟩

/-- C14. Automatic mutation inside `Update`, for a running coherent state.
(a) When `generationsSinceLastMutation >= mutationInterval` the call returns a
state whose history is the old one with the old rule set appended, whose rule
set is the mutated one, whose new grid is computed cell by cell from the old
grid with the post-mutation rule set, whose counter since the last mutation is 1
and whose `generationCount` is one more.  (b) Otherwise the call returns with
the rule set, the history and the generator unchanged and both counters one
more. -/
theorem Update_automatic_mutation (s : Simulation) (rs : RandomSource) (hrun : s.run = true)
    (hc : s.Coherent) :
    (s.mutationInterval ≤ s.generationsSinceLastMutation →
      ∃ s2, s.Update rs = some (s2, (s.MutateRules rs).2) ∧
        s2.ruleHistory = s.ruleHistory ++ [s.currentRules] ∧
        s2.currentRules = (s.MutateRules rs).1.currentRules ∧
        s2.generationsSinceLastMutation = 1 ∧
        s2.generationCount = s.generationCount + 1 ∧
        (∀ row column : Int, s.grid.InBounds row column →
          s2.grid.GetValue row column = some ((s.MutateRules rs).1.stepCell row column)) ∧
        (s.grid.Binary → ∀ row column : Int, s.grid.InBounds row column →
          s2.grid.GetValue row column
            = some (s.grid.nextCell (s.MutateRules rs).1.currentRules row column))) ∧
    (s.generationsSinceLastMutation < s.mutationInterval →
      ∃ s2, s.Update rs = some (s2, rs) ∧
        s2.ruleHistory = s.ruleHistory ∧
        s2.currentRules = s.currentRules ∧
        s2.generationsSinceLastMutation = s.generationsSinceLastMutation + 1 ∧
        s2.generationCount = s.generationCount + 1) := by
  constructor
  · intro hdue
    obtain ⟨t, hup, _, _, _, hget⟩ := Update_running s rs hrun hc
    rw [mutateIfDue_due rs hdue] at hup hget
    refine ⟨_, hup, rfl, rfl, rfl, rfl, hget, ?_⟩
    intro hb row column hrc
    have h := @stepCell_eq_nextCell (s.MutateRules rs).1 hc.1 hb row column hrc
    rw [hget row column hrc]
    exact congrArg some h
  · intro hnot
    obtain ⟨s2, hup, _, _, hr, hh, _, hg, hgc, _⟩ := Update_not_due_fields s rs hrun hnot hc
    exact ⟨s2, hup, hh, hr, hg, hgc⟩

theorem Update_automatic_mutation_witness :
    (sampleState.SetMutationInterval 10).run = true ∧
      (sampleState.SetMutationInterval 10).Coherent ∧
      (sampleState.SetMutationInterval 10).mutationInterval
        ≤ (sampleState.SetMutationInterval 10).generationsSinceLastMutation ∧
      sampleState.generationsSinceLastMutation < sampleState.mutationInterval ∧
      (∃ s2, (sampleState.SetMutationInterval 10).Update lowSource
          = some (s2, ((sampleState.SetMutationInterval 10).MutateRules lowSource).2) ∧
        s2.ruleHistory = [LifeRules.new] ∧ s2.generationsSinceLastMutation = 1 ∧
        s2.generationCount = 13) ∧
      ∃ s2, sampleState.Update lowSource = some (s2, lowSource) ∧
        s2.ruleHistory = [] ∧ s2.generationsSinceLastMutation = 13 ∧ s2.generationCount = 13 :=
  ⟨by decide, by decide, by decide, by decide,
    ((Update_automatic_mutation (sampleState.SetMutationInterval 10) lowSource (by decide)
      (by decide)).1 (by decide)).imp (fun _ h => ⟨h.1, h.2.1, h.2.2.2.1, h.2.2.2.2.1⟩),
    ((Update_automatic_mutation sampleState lowSource (by decide) (by decide)).2
      (by decide)).imp (fun _ h => ⟨h.1, h.2.1, h.2.2.2.1, h.2.2.2.2⟩)⟩

/-! ## Neighbour indices -/

/-- C15. Neighbour indexing is always in bounds.  For a position inside the grid,
each of the eight row indices `(row + dr + R) % R` and column indices
`(column + dc + C) % C` of `CountLiveNeighbors`, `%` being the truncating
remainder, lies in [0,R) resp. [0,C); on a rectangular grid every one of the
eight reads and `CountLiveNeighbors` itself return a value, and `Update` on a
coherent state returns a value: the out-of-array branch is never taken. -/
theorem neighbour_indices_in_bounds (s : Simulation) (row column : Int)
    (h : s.grid.InBounds row column) :
    (∀ offset ∈ neighborOffsets,
      0 ≤ Int.tmod (row + offset.1 + s.grid.GetRows) s.grid.GetRows ∧
      Int.tmod (row + offset.1 + s.grid.GetRows) s.grid.GetRows < s.grid.GetRows ∧
      0 ≤ Int.tmod (column + offset.2 + s.grid.GetColumns) s.grid.GetColumns ∧
      Int.tmod (column + offset.2 + s.grid.GetColumns) s.grid.GetColumns < s.grid.GetColumns) ∧
    (s.grid.WellFormed →
      (∀ offset ∈ neighborOffsets, ∃ v,
        s.grid.GetValue (Int.tmod (row + offset.1 + s.grid.GetRows) s.grid.GetRows)
          (Int.tmod (column + offset.2 + s.grid.GetColumns) s.grid.GetColumns) = some v) ∧
      ∃ n, s.CountLiveNeighbors row column = some n) ∧
    (s.Coherent → ∀ rs : RandomSource, ∃ r, s.Update rs = some r) := by
  obtain ⟨h1, h2, h3, h4⟩ := h
  have hidx : ∀ offset ∈ neighborOffsets,
      0 ≤ Int.tmod (row + offset.1 + s.grid.GetRows) s.grid.GetRows ∧
      Int.tmod (row + offset.1 + s.grid.GetRows) s.grid.GetRows < s.grid.GetRows ∧
      0 ≤ Int.tmod (column + offset.2 + s.grid.GetColumns) s.grid.GetColumns ∧
      Int.tmod (column + offset.2 + s.grid.GetColumns) s.grid.GetColumns < s.grid.GetColumns := by
    intro offset ho
    obtain ⟨hd1, hd2⟩ := offset_bounds ho
    obtain ⟨a1, a2⟩ := wrap_bounds h1 h2 hd1
    obtain ⟨b1, b2⟩ := wrap_bounds h3 h4 hd2
    exact ⟨a1, a2, b1, b2⟩
  refine ⟨hidx, fun hw => ⟨fun offset ho => getValue_some hw (hidx offset ho), ?_⟩,
    fun hc rs => ?_⟩
  · exact ⟨_, CountLiveNeighbors_eq hw ⟨h1, h2, h3, h4⟩⟩
  · by_cases hrun : s.run = true
    · obtain ⟨t, hup, _⟩ := Update_running s rs hrun hc
      exact ⟨_, hup⟩
    · refine ⟨(s, rs), ?_⟩
      unfold Simulation.Update Simulation.IsRunning
      rw [if_neg hrun]

theorem neighbour_indices_in_bounds_witness :
    sampleState.grid.InBounds 0 3 ∧ sampleState.grid.WellFormed ∧ sampleState.Coherent ∧
      (∃ n, sampleState.CountLiveNeighbors 0 3 = some n) ∧
      ∃ r, sampleState.Update lowSource = some r :=
  ⟨by decide, by decide, by decide,
    ((neighbour_indices_in_bounds sampleState 0 3 (by decide)).2.1 (by decide)).2,
    (neighbour_indices_in_bounds sampleState 0 3 (by decide)).2.2 (by decide) lowSource⟩

/-! ## Exactly eight neighbours -/

theorem wrap_ne {i n : Int} (hn : 3 ≤ n) :
    wrapUp i n ≠ i ∧ wrapDown i n ≠ i ∧ wrapUp i n ≠ wrapDown i n := by
  unfold wrapUp wrapDown
  split_ifs <;> omega

theorem neighbourCells_eq {g : Grid} {row column : Int} (h : g.InBounds row column) :
    g.neighbourCells row column =
      [(wrapUp row g.rows, column), (wrapDown row g.rows, column),
        (row, wrapUp column g.columns), (row, wrapDown column g.columns),
        (wrapUp row g.rows, wrapUp column g.columns),
        (wrapUp row g.rows, wrapDown column g.columns),
        (wrapDown row g.rows, wrapUp column g.columns),
        (wrapDown row g.rows, wrapDown column g.columns)] := by
  obtain ⟨h1, h2, h3, h4⟩ := h
  unfold Grid.neighbourCells neighborOffsets
  simp only [List.map_cons, List.map_nil]
  rw [tmod_up h1 h2, tmod_down h1 h2, tmod_up h3 h4, tmod_down h3 h4,
    tmod_wrap_stay h1 h2, tmod_wrap_stay h3 h4]

theorem neighbourCells_distinct {g : Grid} (hr : 3 ≤ g.rows) (hc : 3 ≤ g.columns)
    {row column : Int} (h : g.InBounds row column) :
    (g.neighbourCells row column).Nodup ∧ (row, column) ∉ g.neighbourCells row column := by
  rw [neighbourCells_eq h]
  obtain ⟨a1, a2, a3⟩ := @wrap_ne row g.rows hr
  obtain ⟨b1, b2, b3⟩ := @wrap_ne column g.columns hc
  simp [List.nodup_cons, Prod.ext_iff, a1, a2, a3, b1, b2, b3, a1.symm, a2.symm, a3.symm,
    b1.symm, b2.symm, b3.symm, Ne.symm a1, Ne.symm a2, Ne.symm a3, Ne.symm b1, Ne.symm b2,
    Ne.symm b3]

theorem neighbourCells_small {g : Grid} {row column : Int} (h : g.InBounds row column)
    (hd : (g.neighbourCells row column).Nodup ∧ (row, column) ∉ g.neighbourCells row column) :
    3 ≤ g.rows ∧ 3 ≤ g.columns := by
  obtain ⟨hnd, hmem⟩ := hd
  rw [neighbourCells_eq h] at hnd hmem
  obtain ⟨h1, h2, h3, h4⟩ := h
  by_contra hcon
  have hsmall : g.rows = 1 ∨ g.rows = 2 ∨ g.columns = 1 ∨ g.columns = 2 := by omega
  rcases hsmall with hs | hs | hs | hs
  · rw [hs] at h2 hmem
    have hrow : row = 0 := by omega
    subst hrow
    apply hmem
    simp [wrapUp]
  · rw [hs] at h2 hnd
    have hrow : row = 0 ∨ row = 1 := by omega
    rcases hrow with rfl | rfl <;> simp [wrapUp, wrapDown] at hnd
  · rw [hs] at h4 hmem
    have hcol : column = 0 := by omega
    subst hcol
    apply hmem
    simp [wrapUp]
  · rw [hs] at h4 hnd
    have hcol : column = 0 ∨ column = 1 := by omega
    rcases hcol with rfl | rfl <;> simp [wrapUp, wrapDown] at hnd

/-- C16. Exactly eight neighbours.  On a grid with at least one row and one
column, the eight wrapped positions read by `CountLiveNeighbors` are pairwise
distinct and differ from the cell itself, at every cell, exactly when the grid
has at least 3 rows and 3 columns; the same equivalence holds at each single
cell.  The list always has eight entries; on the 1 x 1 grid all eight are the
cell itself and a live cell gets the count 8. -/
theorem exactly_eight_neighbours (g : Grid) (hr : 1 ≤ g.rows) (hc : 1 ≤ g.columns) :
    ((∀ row column : Int, g.InBounds row column →
        (g.neighbourCells row column).Nodup ∧ (row, column) ∉ g.neighbourCells row column) ↔
      (3 ≤ g.rows ∧ 3 ≤ g.columns)) ∧
    (∀ row column : Int, g.InBounds row column →
      (((g.neighbourCells row column).Nodup ∧ (row, column) ∉ g.neighbourCells row column) ↔
        (3 ≤ g.rows ∧ 3 ≤ g.columns))) ∧
    (∀ row column : Int, (g.neighbourCells row column).length = 8) ∧
    singleCellState.grid.neighbourCells 0 0
      = [(0, 0), (0, 0), (0, 0), (0, 0), (0, 0), (0, 0), (0, 0), (0, 0)] ∧
    singleCellState.CountLiveNeighbors 0 0 = some 8 := by
  have h00 : g.InBounds 0 0 := ⟨le_refl _, by omega, le_refl _, by omega⟩
  refine ⟨⟨fun hall => neighbourCells_small h00 (hall 0 0 h00),
      fun h row column hrc => neighbourCells_distinct h.1 h.2 hrc⟩,
    fun row column hrc => ⟨fun hd => neighbourCells_small hrc hd,
      fun h => neighbourCells_distinct h.1 h.2 hrc⟩,
    fun row column => by simp [Grid.neighbourCells, neighborOffsets], by decide, by decide⟩

theorem exactly_eight_neighbours_witness :
    (1 : Int) ≤ sampleState.grid.rows ∧ (1 : Int) ≤ sampleState.grid.columns ∧
      (sampleState.grid.neighbourCells 2 3).Nodup ∧
      ((2 : Int), (3 : Int)) ∉ sampleState.grid.neighbourCells 2 3 :=
  ⟨by decide, by decide,
    ((exactly_eight_neighbours sampleState.grid (by decide) (by decide)).1.mpr
      ⟨by decide, by decide⟩) 2 3 (by decide)⟩

/-! ## The shift strategy -/

theorem shiftCounts_spec (counts : List Int) (shift : Int) :
    (shiftCounts counts shift).Sorted (fun a b => a < b) ∧
      (∀ y : Int, y ∈ shiftCounts counts shift ↔
        ∃ x ∈ counts, y = max 0 (min 8 (x + shift))) ∧
      (counts ≠ [] → shiftCounts counts shift ≠ []) := by
  refine ⟨unique_sorted_lt (sort_sorted _), fun y => ?_, fun hne => ?_⟩
  · unfold shiftCounts
    rw [mem_unique, mem_sort, List.mem_map]
    constructor
    · rintro ⟨x, hx, rfl⟩; exact ⟨x, hx, rfl⟩
    · rintro ⟨x, hx, rfl⟩; exact ⟨x, hx, rfl⟩
  · exact unique_ne_nil (sort_ne_nil (by simpa using hne))

theorem mutateStrategy_shift (rules : LifeRules) (rs : RandomSource)
    (h6 : 6 ≤ (GetRandomValue rs 0 9).1) (h8 : (GetRandomValue rs 0 9).1 < 8) :
    mutateStrategy rules rs =
      ({ survivalCounts := shiftCounts rules.survivalCounts
            (if (GetRandomValue (GetRandomValue rs 0 9).2 0 1).1 = 0 then -1 else 1)
         birthCounts := shiftCounts rules.birthCounts
            (if (GetRandomValue (GetRandomValue rs 0 9).2 0 1).1 = 0 then -1 else 1) },
        (GetRandomValue (GetRandomValue rs 0 9).2 0 1).2) := by
  unfold mutateStrategy
  simp only []
  rw [if_neg (by omega), if_neg (by omega), if_pos h8]

/-- C17. Shift strategy.  When the strategy draw is 6 or 7 there is one shift
`-1` or `+1` for the whole call such that, for every rule set, the survival
vector at the end of the branch is strictly ascending and holds exactly the
values `max 0 (min 8 (x + shift))` for `x` in the old survival vector, and the
birth vector likewise with the same shift; a non-empty vector stays non-empty,
and when both were non-empty this is the rule set `MutateRules` leaves. -/
theorem shift_strategy (s : Simulation) (rs : RandomSource)
    (h6 : 6 ≤ (GetRandomValue rs 0 9).1) (h8 : (GetRandomValue rs 0 9).1 < 8) :
    ∃ shift : Int, (shift = -1 ∨ shift = 1) ∧
      ((mutateStrategy s.currentRules rs).1.survivalCounts).Sorted (fun a b => a < b) ∧
      (∀ y : Int, y ∈ (mutateStrategy s.currentRules rs).1.survivalCounts ↔
        ∃ x ∈ s.currentRules.survivalCounts, y = max 0 (min 8 (x + shift))) ∧
      ((mutateStrategy s.currentRules rs).1.birthCounts).Sorted (fun a b => a < b) ∧
      (∀ y : Int, y ∈ (mutateStrategy s.currentRules rs).1.birthCounts ↔
        ∃ x ∈ s.currentRules.birthCounts, y = max 0 (min 8 (x + shift))) ∧
      (s.currentRules.survivalCounts ≠ [] →
        (mutateStrategy s.currentRules rs).1.survivalCounts ≠ []) ∧
      (s.currentRules.birthCounts ≠ [] →
        (mutateStrategy s.currentRules rs).1.birthCounts ≠ []) ∧
      (s.currentRules.survivalCounts ≠ [] → s.currentRules.birthCounts ≠ [] →
        (s.MutateRules rs).1.currentRules = (mutateStrategy s.currentRules rs).1) := by
  refine ⟨if (GetRandomValue (GetRandomValue rs 0 9).2 0 1).1 = 0 then -1 else 1, ?_, ?_⟩
  · split_ifs
    · exact Or.inl rfl
    · exact Or.inr rfl
  · rw [mutateStrategy_shift s.currentRules rs h6 h8]
    obtain ⟨a1, a2, a3⟩ := shiftCounts_spec s.currentRules.survivalCounts
      (if (GetRandomValue (GetRandomValue rs 0 9).2 0 1).1 = 0 then -1 else 1)
    obtain ⟨b1, b2, b3⟩ := shiftCounts_spec s.currentRules.birthCounts
      (if (GetRandomValue (GetRandomValue rs 0 9).2 0 1).1 = 0 then -1 else 1)
    refine ⟨a1, a2, b1, b2, a3, b3, fun hs hb => ?_⟩
    show ensureNonEmpty (mutateStrategy s.currentRules rs).1 = _
    rw [mutateStrategy_shift s.currentRules rs h6 h8]
    exact ensureNonEmpty_of_ne_nil (a3 hs) (b3 hb)

theorem shift_strategy_witness :
    6 ≤ (GetRandomValue (replaySource [6, 0]) 0 9).1 ∧
      (GetRandomValue (replaySource [6, 0]) 0 9).1 < 8 ∧
      ∃ shift : Int, (shift = -1 ∨ shift = 1) ∧
        ∀ y : Int, y ∈ (mutateStrategy sampleState.currentRules
            (replaySource [6, 0])).1.survivalCounts ↔
          ∃ x ∈ sampleState.currentRules.survivalCounts, y = max 0 (min 8 (x + shift)) :=
  ⟨by decide, by decide,
    (shift_strategy sampleState (replaySource [6, 0]) (by decide) (by decide)).imp
      (fun _ h => ⟨h.1, h.2.2.1⟩)⟩

/-! ## Full randomization -/

theorem sort_length (l : List Int) : (sort l).length = l.length :=
  (sort_perm l).length_eq

theorem mutateStrategy_random (rules : LifeRules) (rs : RandomSource)
    (h8 : 8 ≤ (GetRandomValue rs 0 9).1) :
    mutateStrategy rules rs = mutateStrategy { survivalCounts := [], birthCounts := [] } rs := by
  unfold mutateStrategy
  simp only []
  rw [if_neg (by omega), if_neg (by omega), if_neg (by omega),
    if_neg (by omega), if_neg (by omega), if_neg (by omega)]

theorem mutateStrategy_random_sizes (rules : LifeRules) (rs : RandomSource) (hr : rs.InRange)
    (h8 : 8 ≤ (GetRandomValue rs 0 9).1) :
    1 ≤ (mutateStrategy rules rs).1.survivalCounts.length ∧
      (mutateStrategy rules rs).1.survivalCounts.length ≤ 4 ∧
      1 ≤ (mutateStrategy rules rs).1.birthCounts.length ∧
      (mutateStrategy rules rs).1.birthCounts.length ≤ 3 := by
  have hr1 : (GetRandomValue rs 0 9).2.InRange := InRange_of_outcome rfl hr
  have h14 : (1 : Int) ≤ 4 := by decide
  have h13 : (1 : Int) ≤ 3 := by decide
  have hn := GetRandomValue_inRange hr1 h14
  have hr2 : (GetRandomValue (GetRandomValue rs 0 9).2 1 4).2.InRange :=
    InRange_of_outcome rfl hr1
  have hs := randomCounts_spec (GetRandomValue (GetRandomValue rs 0 9).2 1 4).1.toNat []
    _ hr2 List.nodup_nil (by simp)
  have hr3 := InRange_of_outcome (randomCounts_outcome
    (GetRandomValue (GetRandomValue rs 0 9).2 1 4).1.toNat [] _) hr2
  have hr4 := InRange_of_outcome (GetRandomValue_outcome
    (randomCounts (GetRandomValue (GetRandomValue rs 0 9).2 1 4).1.toNat []
      (GetRandomValue (GetRandomValue rs 0 9).2 1 4).2).2 1 3) hr3
  have hm := GetRandomValue_inRange hr3 h13
  have hb := randomCounts_spec (GetRandomValue (randomCounts
    (GetRandomValue (GetRandomValue rs 0 9).2 1 4).1.toNat []
      (GetRandomValue (GetRandomValue rs 0 9).2 1 4).2).2 1 3).1.toNat [] _ hr4
    List.nodup_nil (by simp)
  have hs1 := List.length_pos.mpr (hs.2.2.1 (Or.inr (by omega)))
  have hb1 := List.length_pos.mpr (hb.2.2.1 (Or.inr (by omega)))
  have hs4 := hs.2.2.2
  have hb3 := hb.2.2.2
  simp only [List.length_nil, Nat.zero_add] at hs4 hb3
  unfold mutateStrategy
  simp only []
  rw [if_neg (by omega), if_neg (by omega), if_neg (by omega)]
  simp only [sort_length]
  omega

/-- C18. Full randomization.  When the strategy draw is 8 or 9 and the draws lie
in the ranges requested, the rule set after `MutateRules` (and the generator)
is the same whatever the rule set before, the survival vector has between 1 and
4 elements, the birth vector between 1 and 3, and both are sorted ascending,
duplicate-free and within [0,8]. -/
theorem full_randomization (s : Simulation) (rs : RandomSource) (hr : rs.InRange)
    (h8 : 8 ≤ (GetRandomValue rs 0 9).1) :
    (∀ s2 : Simulation,
      (s2.MutateRules rs).1.currentRules = (s.MutateRules rs).1.currentRules ∧
      (s2.MutateRules rs).2 = (s.MutateRules rs).2) ∧
    1 ≤ (s.MutateRules rs).1.currentRules.survivalCounts.length ∧
    (s.MutateRules rs).1.currentRules.survivalCounts.length ≤ 4 ∧
    1 ≤ (s.MutateRules rs).1.currentRules.birthCounts.length ∧
    (s.MutateRules rs).1.currentRules.birthCounts.length ≤ 3 ∧
    (s.MutateRules rs).1.currentRules.WellFormed := by
  obtain ⟨a1, a2, b1, b2⟩ := mutateStrategy_random_sizes s.currentRules rs hr h8
  have hfix : (s.MutateRules rs).1.currentRules = (mutateStrategy s.currentRules rs).1 := by
    show ensureNonEmpty _ = _
    exact ensureNonEmpty_of_ne_nil (List.length_pos.mp (by omega)) (List.length_pos.mp (by omega))
  refine ⟨fun s2 => ⟨?_, ?_⟩, ?_⟩
  · show ensureNonEmpty (mutateStrategy s2.currentRules rs).1
      = ensureNonEmpty (mutateStrategy s.currentRules rs).1
    rw [mutateStrategy_random s2.currentRules rs h8, mutateStrategy_random s.currentRules rs h8]
  · show (mutateStrategy s2.currentRules rs).2 = (mutateStrategy s.currentRules rs).2
    rw [mutateStrategy_random s2.currentRules rs h8, mutateStrategy_random s.currentRules rs h8]
  · rw [hfix]
    refine ⟨a1, a2, b1, b2, ?_⟩
    obtain ⟨⟨_, w2, w3, w4⟩, ⟨_, v2, v3, v4⟩⟩ :
        (mutateStrategy { survivalCounts := [2], birthCounts := [3] } rs).1.WellFormed :=
      mutateStrategy_wellFormed hr (by decide)
    rw [mutateStrategy_random _ rs h8] at w2 w3 w4 v2 v3 v4
    rw [mutateStrategy_random s.currentRules rs h8] at a1 b1 ⊢
    exact ⟨⟨List.length_pos.mp (by omega), w2, w3, w4⟩,
      ⟨List.length_pos.mp (by omega), v2, v3, v4⟩⟩

theorem full_randomization_witness :
    (replaySource [9, 4, 5, 5, 1, 2, 3, 8, 8, 0]).InRange ∧
      8 ≤ (GetRandomValue (replaySource [9, 4, 5, 5, 1, 2, 3, 8, 8, 0]) 0 9).1 ∧
      (Simulation.MutateRules
          { sampleState with currentRules := { survivalCounts := [0, 8], birthCounts := [1] } }
          (replaySource [9, 4, 5, 5, 1, 2, 3, 8, 8, 0])).1.currentRules
        = (sampleState.MutateRules (replaySource [9, 4, 5, 5, 1, 2, 3, 8, 8, 0])).1.currentRules ∧
      (sampleState.MutateRules
        (replaySource [9, 4, 5, 5, 1, 2, 3, 8, 8, 0])).1.currentRules.WellFormed :=
  ⟨replaySource_inRange _, by decide,
    ((full_randomization sampleState _ (replaySource_inRange _) (by decide)).1
      { sampleState with currentRules := { survivalCounts := [0, 8], birthCounts := [1] } }).1,
    (full_randomization sampleState _ (replaySource_inRange _) (by decide)).2.2.2.2.2⟩

/-! ## The add/remove strategies -/

theorem sort_append_singleton {l : List Int} (hs : l.Sorted (fun a b => a ≤ b)) (x : Int) :
    sort (l ++ [x]) = l.orderedInsert (fun a b => a ≤ b) x :=
  @List.eq_of_perm_of_sorted Int (fun a b => a ≤ b) _ _ _
    ((sort_perm _).trans ((List.perm_append_singleton x l).trans
      (List.perm_orderedInsert _ x l).symm))
    (sort_sorted _) (hs.orderedInsert x l)

theorem addOrRemoveCount_outcome_spec {counts : List Int} {rs : RandomSource}
    (hr : rs.InRange) (hw : CountsWellFormed counts) :
    AddOrRemoveOutcome counts (addOrRemoveCount counts rs).1
        (GetRandomValue rs 0 1).1
        (GetRandomValue (GetRandomValue rs 0 1).2 0 ((counts.length : Int) - 1)).1
        (GetRandomValue (GetRandomValue rs 0 1).2 0 8).1 ∧
      1 ≤ (addOrRemoveCount counts rs).1.length ∧
      (addOrRemoveCount counts rs).1.length ≤ counts.length + 1 ∧
      counts.length ≤ (addOrRemoveCount counts rs).1.length + 1 := by
  have hr1 : (GetRandomValue rs 0 1).2.InRange := InRange_of_outcome rfl hr
  have hne := List.length_pos.mpr hw.1
  unfold addOrRemoveCount AddOrRemoveOutcome
  simp only []
  split_ifs with h1 h2
  · have hlen : (0 : Int) ≤ (counts.length : Int) - 1 := by omega
    obtain ⟨hlo, hhi⟩ := GetRandomValue_inRange hr1 hlen
    have hidx : (GetRandomValue (GetRandomValue rs 0 1).2 0
        ((counts.length : Int) - 1)).1.toNat < counts.length := by omega
    refine ⟨Or.inl ⟨h1.1, h1.2, hlo, by omega, rfl⟩, ?_, ?_, ?_⟩ <;>
      rw [List.length_eraseIdx_of_lt hidx] <;> omega
  · exact ⟨Or.inr (Or.inr ⟨h1, h2, rfl⟩), hne, Nat.le_succ _, Nat.le_succ _⟩
  · refine ⟨Or.inr (Or.inl ⟨h1, h2, sort_append_singleton hw.2.1 _⟩), ?_, ?_, ?_⟩ <;>
      rw [sort_length, List.length_append, List.length_singleton] <;> omega

theorem mutateStrategy_survival (rules : LifeRules) (rs : RandomSource)
    (h3 : (GetRandomValue rs 0 9).1 < 3) :
    (mutateStrategy rules rs).1 =
      { rules with
        survivalCounts := (addOrRemoveCount rules.survivalCounts (GetRandomValue rs 0 9).2).1 } := by
  unfold mutateStrategy
  simp only []
  rw [if_pos h3]

theorem mutateStrategy_birth (rules : LifeRules) (rs : RandomSource)
    (h3 : 3 ≤ (GetRandomValue rs 0 9).1) (h6 : (GetRandomValue rs 0 9).1 < 6) :
    (mutateStrategy rules rs).1 =
      { rules with
        birthCounts := (addOrRemoveCount rules.birthCounts (GetRandomValue rs 0 9).2).1 } := by
  unfold mutateStrategy
  simp only []
  rw [if_neg (by omega), if_pos h6]

/-- C19. Add/remove strategy, for a well-formed rule set and draws in the ranges
requested.  When the strategy draw is below 3 the birth vector is unchanged and
the survival vector after `MutateRules` is the old one with the element at the
drawn (valid) position removed, which happens only when the coin is 0 and there
is more than one element, or the old one with the drawn count inserted at its
sorted place when it was absent, or the old one when it was present; its length
is at least 1 and differs from the old length by at most 1.  When the strategy
draw is 3, 4 or 5 the same holds with the two vectors exchanged. -/
theorem add_remove_strategy (s : Simulation) (rs : RandomSource) (hr : rs.InRange)
    (hw : s.currentRules.WellFormed) :
    ((GetRandomValue rs 0 9).1 < 3 →
      (s.MutateRules rs).1.currentRules.birthCounts = s.currentRules.birthCounts ∧
      AddOrRemoveOutcome s.currentRules.survivalCounts
        (s.MutateRules rs).1.currentRules.survivalCounts
        (GetRandomValue (GetRandomValue rs 0 9).2 0 1).1
        (GetRandomValue (GetRandomValue (GetRandomValue rs 0 9).2 0 1).2 0
          ((s.currentRules.survivalCounts.length : Int) - 1)).1
        (GetRandomValue (GetRandomValue (GetRandomValue rs 0 9).2 0 1).2 0 8).1 ∧
      1 ≤ (s.MutateRules rs).1.currentRules.survivalCounts.length ∧
      (s.MutateRules rs).1.currentRules.survivalCounts.length
        ≤ s.currentRules.survivalCounts.length + 1 ∧
      s.currentRules.survivalCounts.length
        ≤ (s.MutateRules rs).1.currentRules.survivalCounts.length + 1) ∧
    (3 ≤ (GetRandomValue rs 0 9).1 → (GetRandomValue rs 0 9).1 < 6 →
      (s.MutateRules rs).1.currentRules.survivalCounts = s.currentRules.survivalCounts ∧
      AddOrRemoveOutcome s.currentRules.birthCounts
        (s.MutateRules rs).1.currentRules.birthCounts
        (GetRandomValue (GetRandomValue rs 0 9).2 0 1).1
        (GetRandomValue (GetRandomValue (GetRandomValue rs 0 9).2 0 1).2 0
          ((s.currentRules.birthCounts.length : Int) - 1)).1
        (GetRandomValue (GetRandomValue (GetRandomValue rs 0 9).2 0 1).2 0 8).1 ∧
      1 ≤ (s.MutateRules rs).1.currentRules.birthCounts.length ∧
      (s.MutateRules rs).1.currentRules.birthCounts.length
        ≤ s.currentRules.birthCounts.length + 1 ∧
      s.currentRules.birthCounts.length
        ≤ (s.MutateRules rs).1.currentRules.birthCounts.length + 1) := by
  have hr1 : (GetRandomValue rs 0 9).2.InRange := InRange_of_outcome rfl hr
  have hwf := mutateStrategy_wellFormed hr hw
  have hfix : (s.MutateRules rs).1.currentRules = (mutateStrategy s.currentRules rs).1 := by
    show ensureNonEmpty _ = _
    exact ensureNonEmpty_of_ne_nil hwf.1.1 hwf.2.1
  rw [hfix]
  constructor
  · intro h3
    rw [mutateStrategy_survival s.currentRules rs h3]
    exact ⟨rfl, addOrRemoveCount_outcome_spec hr1 hw.1⟩
  · intro h3 h6
    rw [mutateStrategy_birth s.currentRules rs h3 h6]
    exact ⟨rfl, addOrRemoveCount_outcome_spec hr1 hw.2⟩

theorem add_remove_strategy_witness :
    (replaySource [0, 0, 1]).InRange ∧ sampleState.currentRules.WellFormed ∧
      (GetRandomValue (replaySource [0, 0, 1]) 0 9).1 < 3 ∧
      (sampleState.MutateRules (replaySource [0, 0, 1])).1.currentRules.birthCounts
        = sampleState.currentRules.birthCounts ∧
      1 ≤ (sampleState.MutateRules (replaySource [0, 0, 1])).1.currentRules.survivalCounts.length :=
  ⟨replaySource_inRange _, by decide, by decide,
    ((add_remove_strategy sampleState (replaySource [0, 0, 1]) (replaySource_inRange _)
      (by decide)).1 (by decide)).1,
    ((add_remove_strategy sampleState (replaySource [0, 0, 1]) (replaySource_inRange _)
      (by decide)).1 (by decide)).2.2.1⟩

/-! ## The countdown invariant -/

theorem foldlM_preserves {σ α : Type} (f : σ → α → Option σ) (P : σ → Prop)
    (h : ∀ st a st2, P st → f st a = some st2 → P st2) :
    ∀ (l : List α) (s s2 : σ), P s → l.foldlM f s = some s2 → P s2
  | [], s, s2, hp, hs => by
    simp only [List.foldlM_nil] at hs
    cases hs
    exact hp
  | a :: rest, s, s2, hp, hs => by
    rw [List.foldlM_cons] at hs
    cases hfa : f s a with
    | none => rw [hfa] at hs; cases hs
    | some s1 =>
      rw [hfa] at hs
      exact foldlM_preserves f P h rest s1 s2 (h s a s1 hp hfa) hs

theorem updateCell_counters {s s2 : Simulation} {row column : Int}
    (h : s.updateCell row column = some s2) :
    s2.generationsSinceLastMutation = s.generationsSinceLastMutation ∧
      s2.mutationInterval = s.mutationInterval := by
  unfold Simulation.updateCell at h
  obtain ⟨n, _, h⟩ := Option.bind_eq_some.mp h
  obtain ⟨v, _, h⟩ := Option.bind_eq_some.mp h
  obtain ⟨t, _, h⟩ := Option.map_eq_some'.mp h
  subst h
  exact ⟨rfl, rfl⟩

theorem updateGrid_counters {s s2 : Simulation} (h : s.updateGrid = some s2) :
    s2.generationsSinceLastMutation = s.generationsSinceLastMutation ∧
      s2.mutationInterval = s.mutationInterval := by
  refine foldlM_preserves (fun st (row : Nat) => Simulation.updateRow st row)
    (fun st => st.generationsSinceLastMutation = s.generationsSinceLastMutation ∧
      st.mutationInterval = s.mutationInterval) ?_ _ s s2 ⟨rfl, rfl⟩ h
  intro st row st2 hp hrow
  refine foldlM_preserves (fun st (column : Nat) => Simulation.updateCell st row column)
    (fun st => st.generationsSinceLastMutation = s.generationsSinceLastMutation ∧
      st.mutationInterval = s.mutationInterval) ?_ _ st st2 hp hrow
  intro st3 column st4 hp3 hcell
  obtain ⟨a, b⟩ := updateCell_counters hcell
  exact ⟨a.trans hp3.1, b.trans hp3.2⟩

theorem mutateIfDue_countdown {s : Simulation} (rs : RandomSource) (h : s.CountdownInv) :
    (s.mutateIfDue rs).1.mutationInterval = s.mutationInterval ∧
      0 ≤ (s.mutateIfDue rs).1.generationsSinceLastMutation ∧
      (s.mutateIfDue rs).1.generationsSinceLastMutation < s.mutationInterval := by
  obtain ⟨h1, h2, h3⟩ := h
  unfold Simulation.mutateIfDue
  split_ifs with hdue
  · exact ⟨rfl, le_refl _, by show (0 : Int) < s.mutationInterval; omega⟩
  · exact ⟨rfl, h2, by show s.generationsSinceLastMutation < s.mutationInterval; omega⟩

theorem Update_countdown {s : Simulation} {rs : RandomSource}
    {r : Simulation × RandomSource} (h : s.CountdownInv) (hup : s.Update rs = some r) :
    r.1.CountdownInv := by
  unfold Simulation.Update Simulation.IsRunning at hup
  split_ifs at hup with hrun
  · obtain ⟨st, hst, hr⟩ := Option.map_eq_some'.mp hup
    obtain ⟨a, b⟩ := updateGrid_counters hst
    obtain ⟨m1, m2, m3⟩ := mutateIfDue_countdown rs h
    subst hr
    show 1 ≤ st.mutationInterval ∧ 0 ≤ st.generationsSinceLastMutation + 1 ∧
      st.generationsSinceLastMutation + 1 ≤ st.mutationInterval
    rw [a, b, m1]
    have := h.1
    omega
  · cases hup
    exact h

theorem perform_countdown {s : Simulation} {rs : RandomSource} {op : Operation}
    {r : Simulation × RandomSource} (h : s.CountdownInv) (hop : s.perform rs op = some r) :
    r.1.CountdownInv := by
  cases op with
  | update => exact Update_countdown h hop
  | mutateRules => cases hop; exact h
  | resetRules =>
    cases hop
    exact ⟨h.1, le_refl _, by show (0 : Int) ≤ s.mutationInterval; have := h.1; omega⟩
  | clearGrid =>
    cases hop
    show s.ClearGrid.CountdownInv
    unfold Simulation.ClearGrid
    split_ifs
    · exact ⟨h.1, le_refl _, by show (0 : Int) ≤ s.mutationInterval; have := h.1; omega⟩
    · exact h
  | createRandomState =>
    cases hop
    show (s.CreateRandomState rs).1.CountdownInv
    unfold Simulation.CreateRandomState
    split_ifs
    · exact h
    · exact h
  | toggleCell row column =>
    simp only [Simulation.perform] at hop
    obtain ⟨s2, hs2, hr⟩ := Option.map_eq_some'.mp hop
    subst hr
    unfold Simulation.ToggleCell at hs2
    split_ifs at hs2
    · obtain ⟨g, _, hg⟩ := Option.map_eq_some'.mp hs2
      subst hg
      exact h
    · cases hs2
      exact h
  | start => cases hop; exact h
  | stop => cases hop; exact h

theorem performAll_countdown : ∀ (ops : List Operation) (s : Simulation) (rs : RandomSource)
    (r : Simulation × RandomSource), s.CountdownInv →
    Simulation.performAll ops s rs = some r → r.1.CountdownInv
  | [], s, rs, r, h, hrun => by
    simp only [Simulation.performAll] at hrun
    cases hrun
    exact h
  | op :: rest, s, rs, r, h, hrun => by
    simp only [Simulation.performAll] at hrun
    obtain ⟨r1, hr1, hrest⟩ := Option.bind_eq_some.mp hrun
    exact performAll_countdown rest r1.1 r1.2 r (perform_countdown h hr1) hrest

/-! ## Every operation returns on a coherent state -/

theorem fillLine_length : ∀ (cellRow : List Int) (rs : RandomSource),
    (Grid.fillLine cellRow rs).1.length = cellRow.length
  | [], _ => rfl
  | _ :: rest, rs => by
    simp only [Grid.fillLine, List.length_cons, fillLine_length rest]

theorem fillLines_shape (n : Nat) : ∀ (cells : List (List Int)) (rs : RandomSource),
    (∀ cellRow ∈ cells, cellRow.length = n) →
    (Grid.fillLines cells rs).1.length = cells.length ∧
      ∀ cellRow ∈ (Grid.fillLines cells rs).1, cellRow.length = n
  | [], _, _ => ⟨rfl, fun _ h => by simp [Grid.fillLines] at h⟩
  | first :: rest, rs, h => by
    obtain ⟨a, b⟩ := fillLines_shape n rest (Grid.fillLine first rs).2
      (fun x hx => h x (List.mem_cons_of_mem _ hx))
    simp only [Grid.fillLines, List.length_cons, a, List.mem_cons]
    refine ⟨trivial, ?_⟩
    rintro cellRow (rfl | hmem)
    · rw [fillLine_length]; exact h first (List.mem_cons_self _ _)
    · exact b cellRow hmem

theorem FillRandom_wellFormed {g : Grid} (hw : g.WellFormed) (rs : RandomSource) :
    (g.FillRandom rs).1.WellFormed ∧ (g.FillRandom rs).1.rows = g.rows ∧
      (g.FillRandom rs).1.columns = g.columns := by
  obtain ⟨h1, h2, h3, h4⟩ := hw
  obtain ⟨a, b⟩ := fillLines_shape g.columns.toNat g.cells rs h4
  exact ⟨⟨h1, h2, a.trans h3, b⟩, rfl, rfl⟩

theorem Clear_wellFormed {g : Grid} (hw : g.WellFormed) :
    g.Clear.WellFormed ∧ g.Clear.rows = g.rows ∧ g.Clear.columns = g.columns := by
  obtain ⟨h1, h2, h3, h4⟩ := hw
  refine ⟨⟨h1, h2, ?_, ?_⟩, rfl, rfl⟩
  · simp only [Grid.Clear, List.length_map]; exact h3
  · intro cellRow hmem
    simp only [Grid.Clear, List.mem_map] at hmem
    obtain ⟨x, hx, rfl⟩ := hmem
    rw [List.length_map]; exact h4 x hx

theorem ToggleCell_wellFormed {g : Grid} (hw : g.WellFormed) {row column : Int}
    (h : g.InBounds row column) :
    ∃ g2, g.ToggleCell row column = some g2 ∧ g2.WellFormed ∧ g2.rows = g.rows ∧
      g2.columns = g.columns := by
  obtain ⟨v, hv⟩ := getValue_some hw h
  obtain ⟨g2, hset, hw2, hr2, hc2, _⟩ := setValue_spec hw h (if v = 0 then 1 else 0)
  refine ⟨g2, ?_, hw2, hr2, hc2⟩
  unfold Grid.ToggleCell
  rw [hv, Option.some_bind, hset]

theorem new_coherent (width height cellSize : Int) (hr : 0 ≤ Int.tdiv height cellSize)
    (hc : 0 ≤ Int.tdiv width cellSize) : (Simulation.new width height cellSize).Coherent := by
  have hw : (Grid.new width height cellSize).WellFormed := by
    refine ⟨hr, hc, by simp [Grid.new], ?_⟩
    intro cellRow hmem
    simp only [Grid.new] at hmem
    rw [(List.mem_replicate.mp hmem).2, List.length_replicate]
    rfl
  exact ⟨hw, hw, rfl, rfl⟩

theorem perform_coherent (s : Simulation) (rs : RandomSource) (op : Operation)
    (hc : s.Coherent)
    (hin : ∀ row column : Int, op = Operation.toggleCell row column →
      s.run = true ∨ s.grid.InBounds row column) :
    ∃ r, s.perform rs op = some r ∧ r.1.Coherent := by
  cases op with
  | update =>
    cases hrun : s.run with
    | true =>
      obtain ⟨t, hup, hw, htr, htc, _⟩ := Update_running s rs hrun hc
      exact ⟨_, hup, hw, hw, rfl, rfl⟩
    | false =>
      refine ⟨(s, rs), ?_, hc⟩
      simp only [Simulation.perform, Simulation.Update, Simulation.IsRunning, hrun]
      rfl
  | mutateRules => exact ⟨_, rfl, hc⟩
  | resetRules => exact ⟨_, rfl, hc⟩
  | clearGrid =>
    refine ⟨_, rfl, ?_⟩
    show s.ClearGrid.Coherent
    unfold Simulation.ClearGrid
    split_ifs
    · obtain ⟨a, b, c⟩ := Clear_wellFormed hc.1
      exact ⟨a, hc.2.1, hc.2.2.1.trans b.symm, hc.2.2.2.trans c.symm⟩
    · exact hc
  | createRandomState =>
    refine ⟨_, rfl, ?_⟩
    show (s.CreateRandomState rs).1.Coherent
    unfold Simulation.CreateRandomState
    split_ifs
    · obtain ⟨a, b, c⟩ := FillRandom_wellFormed hc.1 rs
      exact ⟨a, hc.2.1, hc.2.2.1.trans b.symm, hc.2.2.2.trans c.symm⟩
    · exact hc
  | toggleCell row column =>
    by_cases hrun : s.run = true
    · refine ⟨(s, rs), ?_, hc⟩
      simp only [Simulation.perform, Simulation.ToggleCell, Simulation.IsRunning, hrun]
      rfl
    · have hb : s.grid.InBounds row column := (hin row column rfl).resolve_left hrun
      obtain ⟨g2, htog, a, b, c⟩ := ToggleCell_wellFormed hc.1 hb
      refine ⟨({ s with grid := g2 }, rs), ?_, a, hc.2.1, hc.2.2.1.trans b.symm,
        hc.2.2.2.trans c.symm⟩
      simp only [Simulation.perform, Simulation.ToggleCell, Simulation.IsRunning, htog]
      simp [hrun]
  | start => exact ⟨_, rfl, hc⟩
  | stop => exact ⟨_, rfl, hc⟩

/-- C20. The countdown on display is never negative while the interval is left
alone.  `CountdownInv` (interval at least 1, counter between 0 and the interval)
holds in the state the constructor builds; it is preserved by every result of
`Update`, `MutateRules`, `ResetRules`, `ClearGrid`, `CreateRandomState`,
`ToggleCell`, `Start` and `Stop`; hence after any sequence of these operations
from the constructor state the invariant holds and
`mutationInterval - generationsSinceLastMutation` is at least 0.  Each operation
returns on a coherent state (a paused `ToggleCell` inside the grid).
`SetMutationInterval` can break the invariant: 45 generations after the start,
setting the interval to 40 shows a countdown of -5. -/
theorem countdown_never_negative :
    (∀ width height cellSize : Int, (Simulation.new width height cellSize).CountdownInv) ∧
    (∀ (s : Simulation) (rs : RandomSource) (op : Operation) (r : Simulation × RandomSource),
      s.CountdownInv → s.perform rs op = some r → r.1.CountdownInv) ∧
    (∀ (ops : List Operation) (width height cellSize : Int) (rs : RandomSource)
        (r : Simulation × RandomSource),
      Simulation.performAll ops (Simulation.new width height cellSize) rs = some r →
        r.1.CountdownInv ∧ 0 ≤ r.1.generationsUntilMutation) ∧
    (∀ (s : Simulation) (rs : RandomSource) (op : Operation), s.Coherent →
      (∀ row column : Int, op = Operation.toggleCell row column →
        s.run = true ∨ s.grid.InBounds row column) →
      ∃ r, s.perform rs op = some r ∧ r.1.Coherent) ∧
    (∃ s2, Simulation.UpdateN 45 (Simulation.new 750 750 25).Start lowSource
        = some (s2, lowSource) ∧ s2.CountdownInv ∧
      ¬ (s2.SetMutationInterval 40).CountdownInv ∧
      (s2.SetMutationInterval 40).generationsUntilMutation = -5) := by
  have hnew : ∀ width height cellSize : Int,
      (Simulation.new width height cellSize).CountdownInv := fun _ _ _ => by
    show (1 : Int) ≤ 50 ∧ (0 : Int) ≤ 0 ∧ (0 : Int) ≤ 50
    decide
  refine ⟨hnew, fun s rs op r h hop => perform_countdown h hop, ?_,
    fun s rs op hc hin => perform_coherent s rs op hc hin, ?_⟩
  · intro ops width height cellSize rs r hrun
    have h := performAll_countdown ops _ rs r (hnew width height cellSize) hrun
    refine ⟨h, ?_⟩
    unfold Simulation.generationsUntilMutation
    have := h.2.2
    omega
  · obtain ⟨s2, hup, _, _, _, _, hmi, hg, _⟩ :=
      UpdateN_before_due 45 (Simulation.new 750 750 25).Start lowSource rfl (by decide)
        (by decide)
    have hmi2 : s2.mutationInterval = 50 := hmi
    have hg2 : s2.generationsSinceLastMutation = 45 := hg
    refine ⟨s2, hup, ?_, ?_, ?_⟩
    · unfold Simulation.CountdownInv
      rw [hmi2, hg2]; decide
    · unfold Simulation.CountdownInv Simulation.SetMutationInterval
      simp only [hg2]
      decide
    · unfold Simulation.generationsUntilMutation Simulation.SetMutationInterval
      simp only [hg2]
      decide

theorem countdown_never_negative_witness :
    ∃ r, Simulation.performAll
        [Operation.toggleCell 1 1, Operation.start, Operation.update, Operation.mutateRules,
          Operation.update, Operation.stop, Operation.clearGrid, Operation.createRandomState,
          Operation.resetRules]
        (Simulation.new 3 3 1) lowSource = some r ∧ 0 ≤ r.1.generationsUntilMutation := by
  obtain ⟨r, hr⟩ := Option.isSome_iff_exists.mp (show (Simulation.performAll
        [Operation.toggleCell 1 1, Operation.start, Operation.update, Operation.mutateRules,
          Operation.update, Operation.stop, Operation.clearGrid, Operation.createRandomState,
          Operation.resetRules]
        (Simulation.new 3 3 1) lowSource).isSome = true by decide)
  exact ⟨r, hr, (countdown_never_negative.2.2.1 _ 3 3 1 lowSource r hr).2⟩

end MutatingLife
